import Mathlib

/-!
# WebCrawler: crawl orchestration and HTML extraction

A shallow embedding of `backend/services/crawler.go` and of the parts of
`backend/models/crawl_result.go` it uses, followed by the properties of the
crawl orchestrator, the HTML analyser, the link classifier, the login-form
heuristic and the broken-link checker.

Conventions of the embedding:

* Go `string` is `String`, Go `int` is `Int` (the counters of this program
  count nodes and slice elements, so they stay far below `2^63`).
* A Go `map[string]bool` is an association list with at most one entry per key.
* A Go `error` is the text of its message; `nil` is `none`.
* Calls into the database, the network and the Go standard library whose
  result the program cannot determine are parameters of the embedding.
-/

namespace WebCrawler

/-! ## Go maps -/

/-- A Go `map[string]bool`: one entry per key, most recent insertion first. -/
abbrev GoMap := List (String × Bool)

namespace GoMap

/-- The expression `m[k]`: the stored value, or the zero value `false`. -/
def get (m : GoMap) (k : String) : Bool :=
  match m with
  | [] => false
  | (k', v) :: rest => if k' = k then v else get rest k

/-- The expression `len(m)`: the number of entries. -/
def len (m : GoMap) : Int := (m.length : Int)

/-- The statement `delete(m, k)`. -/
def delete (m : GoMap) (k : String) : GoMap :=
  m.filter (fun e => decide (e.1 ≠ k))

/-- The statement `m[k] = v`: replaces the entry of `k`, or adds one. -/
def set (m : GoMap) (k : String) (v : Bool) : GoMap :=
  (k, v) :: delete m k

/-- The keys of the map. -/
def keys (m : GoMap) : List String := m.map Prod.fst

end GoMap

/-! ## models/crawl_result.go -/

abbrev CrawlStatus := String

def StatusQueued : CrawlStatus := "queued"
def StatusRunning : CrawlStatus := "running"
def StatusCompleted : CrawlStatus := "completed"
def StatusError : CrawlStatus := "error"

/-- The record `models.BrokenLink` (the key and the creation time are left to
the database). -/
structure BrokenLink where
  CrawlResultID : String
  URL : String
  StatusCode : Int
  Text : String
  deriving DecidableEq, Repr

/-- The record `models.HeadingCounts`. -/
structure HeadingCounts where
  H1 : Int
  H2 : Int
  H3 : Int
  H4 : Int
  H5 : Int
  H6 : Int
  deriving DecidableEq, Repr

/-- The record `models.CrawlResult`; times are numbers, the bookkeeping columns
`CreatedAt`, `UpdatedAt`, `DeletedAt` that the crawler never reads are left
out, and the `BrokenLinks` association is the table `CrawlerService.brokenLinks`. -/
structure CrawlResult where
  ID : String
  URL : String
  Title : String
  HTMLVersion : String
  H1Count : Int
  H2Count : Int
  H3Count : Int
  H4Count : Int
  H5Count : Int
  H6Count : Int
  InternalLinksCount : Int
  ExternalLinksCount : Int
  BrokenLinksCount : Int
  HasLoginForm : Bool
  Status : CrawlStatus
  ErrorMessage : Option String
  CrawledAt : Nat
  deriving DecidableEq, Repr

/-- The method `CrawlResult.SetHeadingCounts`. -/
def CrawlResult.SetHeadingCounts (cr : CrawlResult) (counts : HeadingCounts) : CrawlResult :=
  { cr with
    H1Count := counts.H1
    H2Count := counts.H2
    H3Count := counts.H3
    H4Count := counts.H4
    H5Count := counts.H5
    H6Count := counts.H6 }

/-- The method `CrawlResult.GetHeadingCounts`. -/
def CrawlResult.GetHeadingCounts (cr : CrawlResult) : HeadingCounts :=
  { H1 := cr.H1Count, H2 := cr.H2Count, H3 := cr.H3Count,
    H4 := cr.H4Count, H5 := cr.H5Count, H6 := cr.H6Count }

/-! ## The service and its registry -/

/-- The record `services.CrawlerService`. The field `db` is the table of crawl
results behind the `*gorm.DB` handle, `brokenLinks` the table of broken links;
the mutex is implicit: every function below that takes it runs as one step. -/
structure CrawlerService where
  db : List CrawlResult
  brokenLinks : List BrokenLink
  maxConcurrentCrawls : Int
  crawlTimeout : Nat
  maxDepth : Int
  maxPagesPerDomain : Int
  activeCrawls : GoMap
  deriving DecidableEq, Repr

/-- The constructor `NewCrawlerService`; the timeout is in seconds. -/
def NewCrawlerService (db : List CrawlResult) (brokenLinks : List BrokenLink) : CrawlerService :=
  { db := db
    brokenLinks := brokenLinks
    maxConcurrentCrawls := 5
    crawlTimeout := 30
    maxDepth := 3
    maxPagesPerDomain := 100
    activeCrawls := [] }

/-- What `StartCrawl` hands back: the error it returns (`none` for `nil`), the
service afterwards, and the job for which it ran `go cs.performCrawl(id)`, if any. -/
structure StartOutcome where
  err : Option String
  cs : CrawlerService
  launched : Option String
  deriving DecidableEq, Repr

/-- The method `CrawlerService.StartCrawl`. -/
def StartCrawl (cs : CrawlerService) (crawlResultID : String) : StartOutcome :=
  if cs.activeCrawls.get crawlResultID = true then
    { err := some ("crawl already in progress for ID: " ++ crawlResultID)
      cs := cs
      launched := none }
  else if cs.activeCrawls.len ≥ cs.maxConcurrentCrawls then
    { err := some "maximum concurrent crawls reached"
      cs := cs
      launched := none }
  else
    { err := none
      cs := { cs with activeCrawls := cs.activeCrawls.set crawlResultID true }
      launched := some crawlResultID }

/-- The method `CrawlerService.IsCrawlActive`. -/
def IsCrawlActive (cs : CrawlerService) (crawlResultID : String) : Bool :=
  cs.activeCrawls.get crawlResultID

/-- The deferred function of `performCrawl`: under the mutex,
`delete(cs.activeCrawls, crawlResultID)`. -/
def releaseSlot (cs : CrawlerService) (crawlResultID : String) : CrawlerService :=
  { cs with activeCrawls := cs.activeCrawls.delete crawlResultID }

/-! ## The database handle

Every call on the `*gorm.DB` handle can fail for reasons outside the program;
`fault` is the error such a call reports (`none` when the database accepts it),
and a call that fails leaves the tables as they were. -/

/-- The call `db.First(&r, "id = ?", id)`. -/
def dbFirst (db : List CrawlResult) (id : String) (fault : Option String) :
    Except String CrawlResult :=
  match fault with
  | some e => .error e
  | none =>
    match db.find? (fun r => decide (r.ID = id)) with
    | some r => .ok r
    | none => .error "record not found"

/-- The call `db.Save(&r)`: writes every column of the row with the key of `r`,
and inserts `r` when there is no such row. -/
def dbSave (db : List CrawlResult) (r : CrawlResult) (fault : Option String) :
    Option String × List CrawlResult :=
  match fault with
  | some e => (some e, db)
  | none =>
    if db.any (fun x => decide (x.ID = r.ID)) then
      (none, db.map (fun x => if x.ID = r.ID then r else x))
    else
      (none, db ++ [r])

/-- The call `db.Model(&CrawlResult{}).Where("id = ?", id).Update("status", status)`. -/
def dbUpdateStatus (db : List CrawlResult) (id : String) (status : CrawlStatus)
    (fault : Option String) : Option String × List CrawlResult :=
  match fault with
  | some e => (some e, db)
  | none => (none, db.map (fun x => if x.ID = id then { x with Status := status } else x))

/-- The call `db.Create(&brokenLink)`. -/
def dbCreate (table : List BrokenLink) (b : BrokenLink) (fault : Option String) :
    Option String × List BrokenLink :=
  match fault with
  | some e => (some e, table)
  | none => (none, table ++ [b])

/-- The method `CrawlerService.StopCrawl`; it returns the error of the update. -/
def StopCrawl (cs : CrawlerService) (crawlResultID : String) (fault : Option String) :
    Option String × CrawlerService :=
  let cs1 := { cs with activeCrawls := cs.activeCrawls.delete crawlResultID }
  let upd := dbUpdateStatus cs1.db crawlResultID StatusQueued fault
  (upd.1, { cs1 with db := upd.2 })

/-! ## HTML trees (`golang.org/x/net/html`) -/

/-- The type `html.NodeType`. -/
inductive NodeType where
  | ErrorNode
  | TextNode
  | DocumentNode
  | ElementNode
  | CommentNode
  | DoctypeNode
  | RawNode
  deriving DecidableEq, Repr

/-- The record `html.Attribute`. -/
structure Attribute where
  Namespace : String
  Key : String
  Val : String
  deriving DecidableEq, Repr

/-- The record `html.Node`: `Typ` is its field `Type`, and `children` is the
chain that starts at `FirstChild` and follows `NextSibling`. -/
inductive Node where
  | mk (Typ : NodeType) (Data : String) (Namespace : String) (Attr : List Attribute)
      (children : List Node)

namespace Node

def Typ : Node → NodeType
  | mk t _ _ _ _ => t

def Data : Node → String
  | mk _ d _ _ _ => d

def Attr : Node → List Attribute
  | mk _ _ _ a _ => a

def children : Node → List Node
  | mk _ _ _ _ cs => cs

/-- An element without namespace. -/
def elem (tag : String) (attrs : List (String × String)) (children : List Node) : Node :=
  mk .ElementNode tag "" (attrs.map (fun kv => { Namespace := "", Key := kv.1, Val := kv.2 }))
    children

/-- A text node. -/
def text (s : String) : Node := mk .TextNode s "" [] []

/-- A document node. -/
def document (children : List Node) : Node := mk .DocumentNode "" "" [] children

mutual
/-- The node and all its descendants, in document order (depth-first pre-order). -/
def nodes : Node → List Node
  | mk t d ns a cs => mk t d ns a cs :: nodesOfList cs
/-- The nodes of a chain of siblings, in document order. -/
def nodesOfList : List Node → List Node
  | [] => []
  | c :: cs => nodes c ++ nodesOfList cs
end

/-- The proper descendants of a node, in document order. -/
def descendants (n : Node) : List Node := nodesOfList n.children

end Node

/-! ## The crawl data and the library the analyser calls -/

/-- The record `services.CrawlData`. -/
structure CrawlData where
  Title : String
  HTMLVersion : String
  HeadingCounts : HeadingCounts
  InternalLinks : List String
  ExternalLinks : List String
  BrokenLinks : List BrokenLink
  HasLoginForm : Bool
  deriving DecidableEq, Repr

/-- The record `url.URL`, with the fields the crawler or the examples look at. -/
structure URL where
  Scheme : String
  Opaque : String
  Host : String
  Path : String
  OmitHost : Bool
  ForceQuery : Bool
  RawQuery : String
  Fragment : String
  deriving DecidableEq, Repr

/-- The method `URL.IsAbs`. -/
def URL.IsAbs (u : URL) : Bool := decide (u.Scheme ≠ "")

/-- The functions of the Go standard library whose result the analyser takes
as given: `url.Parse`, `URL.ResolveReference`, `URL.String` and
`strings.ToLower`. -/
structure GoStd where
  urlParse : String → Except String URL
  ResolveReference : URL → URL → URL
  urlString : URL → String
  ToLower : String → String

/-! ## strings -/

/-- The function `strings.HasPrefix`, on lists of characters. -/
def startsWith : List Char → List Char → Bool
  | _, [] => true
  | [], _ :: _ => false
  | c :: s, d :: sub => decide (c = d) && startsWith s sub

/-- Whether `sub` occurs in `s`, on lists of characters. -/
def containsChars : List Char → List Char → Bool
  | [], sub => sub.isEmpty
  | c :: s, sub => startsWith (c :: s) sub || containsChars s sub

/-- The function `strings.Contains`. -/
def Contains (s substr : String) : Bool := containsChars s.data substr.data

/-- The function `unicode.IsSpace`: the characters with the Unicode property
White_Space. -/
def IsSpace (c : Char) : Bool :=
  let n := c.toNat
  (9 ≤ n && n ≤ 13) || n = 32 || n = 0x85 || n = 0xA0 || n = 0x1680 ||
    (0x2000 ≤ n && n ≤ 0x200a) || n = 0x2028 || n = 0x2029 || n = 0x202f ||
    n = 0x205f || n = 0x3000

/-- The function `strings.TrimSpace`. -/
def TrimSpace (s : String) : String :=
  String.mk ((s.data.dropWhile IsSpace).reverse.dropWhile IsSpace).reverse

/-! ## The link classifier -/

/-- The method `CrawlerService.categorizeLink`. -/
def categorizeLink (std : GoStd) (href baseDomain baseURL : String) (data : CrawlData) :
    CrawlData :=
  match std.urlParse href with
  | .error _ => data
  | .ok linkURL =>
    if linkURL.IsAbs then
      if linkURL.Host = baseDomain then
        { data with InternalLinks := data.InternalLinks ++ [href] }
      else
        { data with ExternalLinks := data.ExternalLinks ++ [href] }
    else
      match std.urlParse baseURL with
      | .error _ => data
      | .ok baseURLParsed =>
        let resolvedURL := std.ResolveReference baseURLParsed linkURL
        { data with InternalLinks := data.InternalLinks ++ [std.urlString resolvedURL] }

/-! ## The login-form heuristic -/

/-- The three variables `inputType`, `inputName`, `inputId` of
`checkLoginFormFields`. -/
structure InputAttrs where
  inputType : String
  inputName : String
  inputId : String
  deriving DecidableEq, Repr

/-- The loop of `checkLoginFormFields` over the attributes of an input. -/
def readInputAttrs (std : GoStd) (attrs : List Attribute) : InputAttrs :=
  attrs.foldl
    (fun st attr =>
      if attr.Key = "type" then { st with inputType := attr.Val }
      else if attr.Key = "name" then { st with inputName := std.ToLower attr.Val }
      else if attr.Key = "id" then { st with inputId := std.ToLower attr.Val }
      else st)
    { inputType := "", inputName := "", inputId := "" }

/-- The two flags `hasPassword`, `hasUsername` that `checkLoginFormFields`
updates through its pointers. -/
structure LoginFlags where
  hasPassword : Bool
  hasUsername : Bool
  deriving DecidableEq, Repr

/-- The two `if` statements of `checkLoginFormFields` that follow the loop over
the attributes. -/
def applyInputAttrs (a : InputAttrs) (flags : LoginFlags) : LoginFlags :=
  let flags1 := if a.inputType = "password" then { flags with hasPassword := true } else flags
  if a.inputType = "text" ∨ a.inputType = "email" then
    if Contains a.inputName "user" || Contains a.inputName "email" ||
        Contains a.inputName "login" || Contains a.inputId "user" ||
        Contains a.inputId "email" || Contains a.inputId "login" then
      { flags1 with hasUsername := true }
    else flags1
  else flags1

/-- The part of `checkLoginFormFields` that looks at the node itself. -/
def checkLoginFormNode (std : GoStd) (Typ : NodeType) (Data : String)
    (Attr : List Attribute) (flags : LoginFlags) : LoginFlags :=
  if Typ = NodeType.ElementNode ∧ Data = "input" then
    applyInputAttrs (readInputAttrs std Attr) flags
  else flags

mutual
/-- The method `CrawlerService.checkLoginFormFields`. -/
def checkLoginFormFields (std : GoStd) : Node → LoginFlags → LoginFlags
  | .mk t d _ a cs, flags =>
    checkLoginFormFieldsChildren std cs (checkLoginFormNode std t d a flags)
/-- The loop of `checkLoginFormFields` over the children. -/
def checkLoginFormFieldsChildren (std : GoStd) : List Node → LoginFlags → LoginFlags
  | [], flags => flags
  | c :: cs, flags =>
    checkLoginFormFieldsChildren std cs (checkLoginFormFields std c flags)
end

/-- The method `CrawlerService.isLoginForm`. -/
def isLoginForm (std : GoStd) (n : Node) : Bool :=
  let flags := checkLoginFormFields std n { hasPassword := false, hasUsername := false }
  flags.hasPassword && flags.hasUsername

/-! ## The HTML analyser -/

/-- The case `"html"` of `extractHTMLData`. -/
def visitHTML (attrs : List Attribute) (data : CrawlData) : CrawlData :=
  let data1 := attrs.foldl
    (fun d attr => if attr.Key = "version" then { d with HTMLVersion := "HTML " ++ attr.Val } else d)
    data
  if data1.HTMLVersion = "" then { data1 with HTMLVersion := "HTML5" } else data1

/-- The case `"title"` of `extractHTMLData`. -/
def visitTitle (children : List Node) (data : CrawlData) : CrawlData :=
  match children with
  | [] => data
  | FirstChild :: _ => { data with Title := TrimSpace FirstChild.Data }

/-- The case `"a"` of `extractHTMLData`. -/
def visitAnchor (std : GoStd) (baseDomain baseURL : String) (attrs : List Attribute)
    (data : CrawlData) : CrawlData :=
  attrs.foldl
    (fun d attr =>
      if attr.Key = "href" ∧ attr.Val ≠ "" then categorizeLink std attr.Val baseDomain baseURL d
      else d)
    data

/-- The case `"input"` of `extractHTMLData`. -/
def visitInput (attrs : List Attribute) (data : CrawlData) : CrawlData :=
  attrs.foldl
    (fun d attr =>
      if attr.Key = "type" ∧ attr.Val = "password" then { d with HasLoginForm := true } else d)
    data

/-- The part of `extractHTMLData` that looks at the node itself: the `switch`
on `n.Data` for an element node. -/
def visitNode (std : GoStd) (baseDomain baseURL : String) (n : Node) (data : CrawlData) :
    CrawlData :=
  if n.Typ = NodeType.ElementNode then
    if n.Data = "html" then visitHTML n.Attr data
    else if n.Data = "title" then visitTitle n.children data
    else if n.Data = "h1" then
      { data with HeadingCounts := { data.HeadingCounts with H1 := data.HeadingCounts.H1 + 1 } }
    else if n.Data = "h2" then
      { data with HeadingCounts := { data.HeadingCounts with H2 := data.HeadingCounts.H2 + 1 } }
    else if n.Data = "h3" then
      { data with HeadingCounts := { data.HeadingCounts with H3 := data.HeadingCounts.H3 + 1 } }
    else if n.Data = "h4" then
      { data with HeadingCounts := { data.HeadingCounts with H4 := data.HeadingCounts.H4 + 1 } }
    else if n.Data = "h5" then
      { data with HeadingCounts := { data.HeadingCounts with H5 := data.HeadingCounts.H5 + 1 } }
    else if n.Data = "h6" then
      { data with HeadingCounts := { data.HeadingCounts with H6 := data.HeadingCounts.H6 + 1 } }
    else if n.Data = "a" then visitAnchor std baseDomain baseURL n.Attr data
    else if n.Data = "form" then
      if isLoginForm std n then { data with HasLoginForm := true } else data
    else if n.Data = "input" then visitInput n.Attr data
    else data
  else data

mutual
/-- The method `CrawlerService.extractHTMLData`. -/
def extractHTMLData (std : GoStd) (baseDomain baseURL : String) : Node → CrawlData → CrawlData
  | .mk t d ns a cs, data =>
    extractHTMLDataChildren std baseDomain baseURL cs
      (visitNode std baseDomain baseURL (.mk t d ns a cs) data)
/-- The loop of `extractHTMLData` over the children. -/
def extractHTMLDataChildren (std : GoStd) (baseDomain baseURL : String) :
    List Node → CrawlData → CrawlData
  | [], data => data
  | c :: cs, data =>
    extractHTMLDataChildren std baseDomain baseURL cs
      (extractHTMLData std baseDomain baseURL c data)
end

/-! ## The broken-link checker -/

/-- The record `http.Response`, with the fields the crawler reads. -/
structure Response where
  StatusCode : Int
  Status : String
  Body : String
  deriving DecidableEq, Repr

/-- The HTTP client: the answer to `client.Head(link)` and to `client.Get(url)`,
either an error or a response. The same request always gets the same answer. -/
structure Client where
  Head : String → Except String Response
  Get : String → Except String Response

/-- The method `CrawlerService.isLinkBroken`; the second component is the list
of links probed so far. -/
def isLinkBroken (client : Client) (link : String) (probed : List String) :
    Bool × List String :=
  match client.Head link with
  | .error _ => (true, probed ++ [link])
  | .ok resp => (decide (resp.StatusCode ≥ 400), probed ++ [link])

/-- The body of the loop of `checkBrokenLinks` for one link. -/
def checkLink (client : Client) (st : CrawlData × List String) (link : String) :
    CrawlData × List String :=
  let r := isLinkBroken client link st.2
  if r.1 then
    let statusCode : Int :=
      match client.Head link with
      | .ok resp => resp.StatusCode
      | .error _ => 0
    ({ st.1 with
        BrokenLinks := st.1.BrokenLinks ++
          [{ CrawlResultID := "", URL := link, StatusCode := statusCode, Text := "Link text" }] },
      r.2 ++ [link])
  else (st.1, r.2)

/-- The method `CrawlerService.checkBrokenLinks`; the second component is the
list of the links it sent a HEAD request to, in order. -/
def checkBrokenLinks (client : Client) (data : CrawlData) : CrawlData × List String :=
  let allLinks := data.InternalLinks ++ data.ExternalLinks
  let maxLinksToCheck := 10
  let allLinks := if allLinks.length > maxLinksToCheck then allLinks.take maxLinksToCheck
    else allLinks
  allLinks.foldl (checkLink client) (data, [])

/-! ## The pipeline -/

/-- What a run of `performCrawl` gets from outside the program: the standard
library, the HTTP client, the parser `html.Parse`, the clock `time.Now()`, and
for each call on the database handle, numbered from 0 in the order the run
makes them, the error it reports. -/
structure CrawlEnv where
  std : GoStd
  client : Client
  htmlParse : String → Except String Node
  now : Nat
  dbFault : Nat → Option String

/-- The method `CrawlerService.crawlURL`. -/
def crawlURL (env : CrawlEnv) (targetURL : String) : Except String CrawlData :=
  match env.client.Get targetURL with
  | .error err => .error ("failed to fetch URL: " ++ err)
  | .ok resp =>
    if resp.StatusCode ≠ 200 then
      .error ("HTTP " ++ toString resp.StatusCode ++ ": " ++ resp.Status)
    else
      match env.htmlParse resp.Body with
      | .error err => .error ("failed to parse HTML: " ++ err)
      | .ok doc =>
        let crawlData : CrawlData :=
          { Title := ""
            HTMLVersion := ""
            HeadingCounts := { H1 := 0, H2 := 0, H3 := 0, H4 := 0, H5 := 0, H6 := 0 }
            InternalLinks := []
            ExternalLinks := []
            BrokenLinks := []
            HasLoginForm := false }
        match env.std.urlParse targetURL with
        | .error err => .error ("failed to parse target URL: " ++ err)
        | .ok parsedURL =>
          let crawlData := extractHTMLData env.std parsedURL.Host targetURL doc crawlData
          let crawlData := (checkBrokenLinks env.client crawlData).1
          .ok crawlData

/-- The loop of `performCrawl` that stores the broken links; `k` is the number
of the next call on the database handle. -/
def saveBrokenLinks (dbFault : Nat → Option String) (id : String) :
    List BrokenLink → List BrokenLink → Nat → List BrokenLink
  | [], table, _ => table
  | brokenLink :: rest, table, k =>
    saveBrokenLinks dbFault id rest
      (dbCreate table { brokenLink with CrawlResultID := id } (dbFault k)).2 (k + 1)

/-- The record `performCrawl` hands to `db.Save` when the crawl failed with `err`. -/
def errorRecord (crawlResult : CrawlResult) (errMsg : String) : CrawlResult :=
  { crawlResult with Status := StatusError, ErrorMessage := some errMsg }

/-- The record `performCrawl` hands to `db.Save` when the crawl produced `crawlData`. -/
def completedRecord (crawlResult : CrawlResult) (crawlData : CrawlData) (now : Nat) :
    CrawlResult :=
  let crawlResult := { crawlResult with Title := crawlData.Title }
  let crawlResult := { crawlResult with HTMLVersion := crawlData.HTMLVersion }
  let crawlResult := crawlResult.SetHeadingCounts crawlData.HeadingCounts
  let crawlResult := { crawlResult with InternalLinksCount := crawlData.InternalLinks.length }
  let crawlResult := { crawlResult with ExternalLinksCount := crawlData.ExternalLinks.length }
  let crawlResult := { crawlResult with BrokenLinksCount := crawlData.BrokenLinks.length }
  let crawlResult := { crawlResult with HasLoginForm := crawlData.HasLoginForm }
  let crawlResult := { crawlResult with Status := StatusCompleted }
  { crawlResult with CrawledAt := now }

/-- The body of `performCrawl`, from the load of the record to the last line,
without the deferred function, as it runs when no other call on the service
falls between its statements. The body holds no lock: `taskStep` below has the
same statements as steps of their own. -/
def performCrawlBody (env : CrawlEnv) (cs : CrawlerService) (crawlResultID : String) :
    CrawlerService :=
  match dbFirst cs.db crawlResultID (env.dbFault 0) with
  | .error _ => cs
  | .ok crawlResult =>
    let crawlResult := { crawlResult with Status := StatusRunning }
    let cs := { cs with db := (dbSave cs.db crawlResult (env.dbFault 1)).2 }
    match crawlURL env crawlResult.URL with
    | .error errMsg =>
      { cs with db := (dbSave cs.db (errorRecord crawlResult errMsg) (env.dbFault 2)).2 }
    | .ok crawlData =>
      let crawlResult := completedRecord crawlResult crawlData env.now
      match dbSave cs.db crawlResult (env.dbFault 2) with
      | (some _, _) => cs
      | (none, db) =>
        { cs with
          db := db
          brokenLinks :=
            saveBrokenLinks env.dbFault crawlResult.ID crawlData.BrokenLinks cs.brokenLinks 3 }

/-- The method `CrawlerService.performCrawl`: the body, then on every way out
of it the deferred function. This is the whole run of one goroutine with no
other call in between (`runTask` reaches it). -/
def performCrawl (env : CrawlEnv) (cs : CrawlerService) (crawlResultID : String) :
    CrawlerService :=
  releaseSlot (performCrawlBody env cs crawlResultID) crawlResultID

/-! ## The orchestrator as a transition system

The registry is shared by the callers of `StartCrawl` and `StopCrawl` and by the
goroutines that run `performCrawl`; each of them touches it in one step under
the mutex. A state is the service together with the goroutines launched by
`go cs.performCrawl(id)` that have not returned yet. -/

structure Orchestrator where
  cs : CrawlerService
  tasks : List String
  deriving DecidableEq, Repr

/-- The atomic steps: a call of `StartCrawl`, a call of `StopCrawl` (with the
error its update meets), and the exit of the goroutine of a job, which runs the
deferred function of `performCrawl`. -/
inductive Step where
  | start (crawlResultID : String)
  | stop (crawlResultID : String) (fault : Option String)
  | exit (crawlResultID : String)
  deriving DecidableEq, Repr

/-- One step of the orchestrator; the exit of a goroutine that does not run is
no step. -/
def step (s : Orchestrator) : Step → Orchestrator
  | .start id =>
    let r := StartCrawl s.cs id
    { cs := r.cs
      tasks := match r.launched with
        | some j => s.tasks ++ [j]
        | none => s.tasks }
  | .stop id fault => { s with cs := (StopCrawl s.cs id fault).2 }
  | .exit id =>
    if id ∈ s.tasks then { cs := releaseSlot s.cs id, tasks := s.tasks.erase id } else s

/-- A finite sequence of steps. -/
def run (s : Orchestrator) (steps : List Step) : Orchestrator :=
  steps.foldl step s

/-- The state of a service right after its construction. -/
def Orchestrator.init (cs : CrawlerService) : Orchestrator :=
  { cs := cs, tasks := [] }

/-- A caller that admits the jobs of a list one after the other: the errors
`StartCrawl` returned, in order, and the service afterwards. -/
def startAll (cs : CrawlerService) : List String → List (Option String) × CrawlerService
  | [] => ([], cs)
  | id :: ids =>
    let r := StartCrawl cs id
    let rest := startAll r.cs ids
    (r.err :: rest.1, rest.2)

/-- The invariant of the registry: one entry per job, and no more entries than
`maxConcurrentCrawls`. -/
def RegistryOK (N : Int) (s : Orchestrator) : Prop :=
  s.cs.maxConcurrentCrawls = N ∧ (s.cs.activeCrawls.keys).Nodup ∧ s.cs.activeCrawls.len ≤ N

/-! ## The standard library on plain text

The functions of `net/url` and `strings.ToLower`, written out for plain text:
ASCII letters and digits and the characters `: / ? # . - _ ~ + = &`, with a
host made of letters, digits, dots and hyphens. On such text nothing is
escaped or unescaped, there is no user information and no bracketed host, and
the functions below follow the Go ones statement by statement. The examples
are evaluated with them; the general statements hold for every `GoStd`. -/

namespace GoURL

/-- The function `strings.Cut` for a one-character separator: the text before
the first separator, the text after it, and whether there is one. -/
def cut (sep : Char) : List Char → List Char × List Char × Bool
  | [] => ([], [], false)
  | c :: s =>
    if c = sep then ([], s, true)
    else
      let r := cut sep s
      (c :: r.1, r.2.1, r.2.2)

/-- The pieces between the separators: what the loop
`elem, remaining, found = strings.Cut(remaining, "/")` runs through. -/
def splitOn (sep : Char) : List Char → List (List Char)
  | [] => [[]]
  | c :: s =>
    if c = sep then [] :: splitOn sep s
    else
      match splitOn sep s with
      | [] => [[c]]
      | seg :: segs => (c :: seg) :: segs

/-- The text before the last separator (`s[:strings.LastIndex(s, sep)]`), or
`none` when there is no separator. -/
def beforeLast (sep : Char) (s : List Char) : Option (List Char) :=
  match (splitOn sep s).reverse with
  | [] => none
  | [_] => none
  | _ :: segs => some (List.intercalate [sep] segs.reverse)

def isLetter (c : Char) : Bool :=
  (decide ('a' ≤ c) && decide (c ≤ 'z')) || (decide ('A' ≤ c) && decide (c ≤ 'Z'))

/-- The function `getScheme`; `seen` is the text read so far. -/
def getSchemeFrom (rawURL : List Char) (seen : List Char) :
    List Char → Except String (List Char × List Char)
  | [] => .ok ([], rawURL)
  | c :: s =>
    if isLetter c then getSchemeFrom rawURL (seen ++ [c]) s
    else if (decide ('0' ≤ c) && decide (c ≤ '9')) || c = '+' || c = '-' || c = '.' then
      if seen.isEmpty then .ok ([], rawURL) else getSchemeFrom rawURL (seen ++ [c]) s
    else if c = ':' then
      if seen.isEmpty then .error "missing protocol scheme" else .ok (seen, s)
    else .ok ([], rawURL)

def getScheme (rawURL : List Char) : Except String (List Char × List Char) :=
  getSchemeFrom rawURL [] rawURL

/-- ASCII lower case, the value of `strings.ToLower` on ASCII text. -/
def lowerChar (c : Char) : Char :=
  if decide ('A' ≤ c) && decide (c ≤ 'Z') then Char.ofNat (c.toNat + 32) else c

def ToLower (s : String) : String := String.mk (s.data.map lowerChar)

/-- The message of the `*url.Error` that `url.Parse` returns for the text `u`:
the operation, the text in quotes, and the cause. -/
def parseError (u : List Char) (cause : String) : String :=
  "parse " ++ String.mk ([Char.ofNat 34] ++ u ++ [Char.ofNat 34]) ++ ": " ++ cause

/-- The message of the `*url.Error` that `client.Get` returns for the address
`u`: the operation, the address in quotes, and the cause. -/
def getError (u : String) (cause : String) : String :=
  "Get " ++ String.mk ([Char.ofNat 34] ++ u.data ++ [Char.ofNat 34]) ++ ": " ++ cause

/-- The function `url.Parse`. -/
def Parse (rawURL : String) : Except String URL :=
  let c0 := cut '#' rawURL.data
  let u := c0.1
  let frag := c0.2.1
  if u.any (fun c => decide (c.toNat < 32) || decide (c.toNat = 127)) then
    .error (parseError u "net/url: invalid control character in URL")
  else if u = ['*'] then
    .ok { Scheme := "", Opaque := "", Host := "", Path := "*", OmitHost := false,
          ForceQuery := false, RawQuery := "", Fragment := String.mk frag }
  else
    match getScheme u with
    | .error e => .error (parseError u e)
    | .ok (scheme, rest) =>
      let scheme := scheme.map lowerChar
      let force := decide (rest.getLast? = some '?') && decide (rest.count '?' = 1)
      let q := cut '?' rest
      let rest := q.1
      let rawQuery := if force then [] else q.2.1
      if !startsWith rest ['/'] && !scheme.isEmpty then
        .ok { Scheme := String.mk scheme, Opaque := String.mk rest, Host := "", Path := "",
              OmitHost := false, ForceQuery := force, RawQuery := String.mk rawQuery,
              Fragment := String.mk frag }
      else if !startsWith rest ['/'] && (cut '/' rest).1.contains ':' then
        .error (parseError u "first path segment in URL cannot contain colon")
      else if (!scheme.isEmpty || !startsWith rest ['/', '/', '/']) &&
          startsWith rest ['/', '/'] then
        let a := cut '/' (rest.drop 2)
        let authority := a.1
        let rest := if a.2.2 then '/' :: a.2.1 else []
        .ok { Scheme := String.mk scheme, Opaque := "", Host := String.mk authority,
              Path := String.mk rest, OmitHost := false, ForceQuery := force,
              RawQuery := String.mk rawQuery, Fragment := String.mk frag }
      else
        .ok { Scheme := String.mk scheme, Opaque := "", Host := "", Path := String.mk rest,
              OmitHost := !scheme.isEmpty && startsWith rest ['/'], ForceQuery := force,
              RawQuery := String.mk rawQuery, Fragment := String.mk frag }

/-- One round of the loop of `resolvePath`: `dst` is the text written after the
leading slash. -/
def resolveStep (st : List Char × Bool) (elem : List Char) : List Char × Bool :=
  if elem = ['.'] then (st.1, false)
  else if elem = ['.', '.'] then
    match beforeLast '/' st.1 with
    | none => ([], true)
    | some str => (str, st.2)
  else
    ((if st.2 then st.1 else st.1 ++ ['/']) ++ elem, false)

/-- The function `resolvePath`. -/
def resolvePath (base ref : List Char) : List Char :=
  let full :=
    match ref with
    | [] => base
    | c :: _ =>
      if c ≠ '/' then
        match beforeLast '/' base with
        | none => ref
        | some b => b ++ ['/'] ++ ref
      else ref
  if full.isEmpty then []
  else
    let segs := splitOn '/' full
    let dst := (segs.foldl resolveStep ([], true)).1
    let last := segs.getLast?
    let dst := if last = some ['.'] ∨ last = some ['.', '.'] then dst ++ ['/'] else dst
    match dst with
    | '/' :: _ => dst
    | _ => '/' :: dst

/-- The method `URL.ResolveReference`. -/
def ResolveReference (u ref : URL) : URL :=
  let url := if ref.Scheme = "" then { ref with Scheme := u.Scheme } else ref
  if ref.Scheme ≠ "" ∨ ref.Host ≠ "" then
    { url with Path := String.mk (resolvePath ref.Path.data []) }
  else if ref.Opaque ≠ "" then
    { url with Host := "", Path := "" }
  else
    let url :=
      if ref.Path = "" ∧ ref.ForceQuery = false ∧ ref.RawQuery = "" then
        let url := { url with RawQuery := u.RawQuery }
        if ref.Fragment = "" then { url with Fragment := u.Fragment } else url
      else url
    if ref.Path = "" ∧ u.Opaque ≠ "" then
      { url with Opaque := u.Opaque, Host := "", Path := "" }
    else
      { url with Host := u.Host, Path := String.mk (resolvePath u.Path.data ref.Path.data) }

/-- The method `URL.EscapedFragment` on plain text: of the characters of plain
text only `#` is escaped in a fragment. -/
def escapeFragment (fragment : String) : String :=
  String.mk (fragment.data.flatMap (fun c => if c = '#' then ['%', '2', '3'] else [c]))

/-- The method `URL.String`. -/
def urlString (u : URL) : String :=
  let buf := if u.Scheme ≠ "" then u.Scheme ++ ":" else ""
  let buf :=
    if u.Opaque ≠ "" then buf ++ u.Opaque
    else
      let buf :=
        if u.Scheme ≠ "" ∨ u.Host ≠ "" then
          if u.OmitHost = true ∧ u.Host = "" then buf
          else
            let buf := if u.Host ≠ "" ∨ u.Path ≠ "" then buf ++ "//" else buf
            if u.Host ≠ "" then buf ++ u.Host else buf
        else buf
      let buf := if u.Path ≠ "" ∧ ¬ startsWith u.Path.data ['/'] ∧ u.Host ≠ "" then buf ++ "/"
        else buf
      let buf := if buf = "" ∧ (cut '/' u.Path.data).1.contains ':' then buf ++ "./" else buf
      buf ++ u.Path
  let buf := if u.ForceQuery = true ∨ u.RawQuery ≠ "" then buf ++ "?" ++ u.RawQuery else buf
  if u.Fragment ≠ "" then buf ++ "#" ++ escapeFragment u.Fragment else buf

end GoURL

/-- The standard library on plain text. -/
def goStd : GoStd :=
  { urlParse := GoURL.Parse
    ResolveReference := GoURL.ResolveReference
    urlString := GoURL.urlString
    ToLower := GoURL.ToLower }

deriving instance DecidableEq for Except

/-! ## Counting the nodes of a tree -/

/-- An element node with the given tag. -/
def Node.isTag (tag : String) (n : Node) : Bool :=
  decide (n.Typ = NodeType.ElementNode) && decide (n.Data = tag)

/-- The number of element nodes with the given tag among the node and its
descendants. -/
def Node.countTag (tag : String) (n : Node) : Nat :=
  (n.nodes.filter (Node.isTag tag)).length

/-- For each of `h1` to `h6`, the number of element nodes of a list with that tag. -/
def headingTally (l : List Node) : HeadingCounts :=
  { H1 := ((l.filter (Node.isTag "h1")).length : Int)
    H2 := ((l.filter (Node.isTag "h2")).length : Int)
    H3 := ((l.filter (Node.isTag "h3")).length : Int)
    H4 := ((l.filter (Node.isTag "h4")).length : Int)
    H5 := ((l.filter (Node.isTag "h5")).length : Int)
    H6 := ((l.filter (Node.isTag "h6")).length : Int) }

/-- The sum of two records of counters. -/
def HeadingCounts.add (a b : HeadingCounts) : HeadingCounts :=
  { H1 := a.H1 + b.H1, H2 := a.H2 + b.H2, H3 := a.H3 + b.H3,
    H4 := a.H4 + b.H4, H5 := a.H5 + b.H5, H6 := a.H6 + b.H6 }

/-- The data `crawlURL` starts the analysis with. -/
def emptyCrawlData : CrawlData :=
  { Title := ""
    HTMLVersion := ""
    HeadingCounts := { H1 := 0, H2 := 0, H3 := 0, H4 := 0, H5 := 0, H6 := 0 }
    InternalLinks := []
    ExternalLinks := []
    BrokenLinks := []
    HasLoginForm := false }

/-- A document with two `h1` and one `h2`, one of them nested in a `div`. -/
def headingsDoc : Node :=
  .document [.elem "html" [] [
    .elem "head" [] [.elem "title" [] [.text " Two headings "]],
    .elem "body" [] [
      .elem "h1" [] [.text "First"],
      .elem "div" [] [.elem "h2" [] [.text "Second"], .elem "h1" [] [.text "Third"]],
      .text "h3"]]]

/-! ## Sample runs -/

/-- A job as `SubmitURL` creates it. -/
def sampleJob : CrawlResult :=
  { ID := "job-1"
    URL := "https://example.com"
    Title := ""
    HTMLVersion := ""
    H1Count := 0
    H2Count := 0
    H3Count := 0
    H4Count := 0
    H5Count := 0
    H6Count := 0
    InternalLinksCount := 0
    ExternalLinksCount := 0
    BrokenLinksCount := 0
    HasLoginForm := false
    Status := StatusQueued
    ErrorMessage := none
    CrawledAt := 0 }

/-- A run in which the fetch of the page exceeds the timeout of the client. -/
def timeoutEnv : CrawlEnv :=
  { std := goStd
    client :=
      { Head := fun _ => .error "connection refused"
        Get := fun u =>
          .error (GoURL.getError u
            "context deadline exceeded (Client.Timeout exceeded while awaiting headers)") }
    htmlParse := fun _ => .ok (Node.document [])
    now := 1700000000
    dbFault := fun _ => none }

/-- A run in which the page is the document `headingsDoc`. -/
def headingsEnv : CrawlEnv :=
  { std := goStd
    client :=
      { Head := fun _ => .error "connection refused"
        Get := fun _ => .ok { StatusCode := 200, Status := "200 OK", Body := "" } }
    htmlParse := fun _ => .ok headingsDoc
    now := 1700000000
    dbFault := fun _ => none }

/-! ## Inputs of a form -/

/-- An `input` element. -/
def Node.isInput (m : Node) : Bool :=
  decide (m.Typ = NodeType.ElementNode) && decide (m.Data = "input")

/-- The value of the attribute `key` in a list of attributes; where a key is
repeated the last one counts. -/
def lastAttr (key : String) (attrs : List Attribute) : Option String :=
  ((attrs.filter (fun a => decide (a.Key = key))).getLast?).map Attribute.Val

/-- The value of the attribute `key` of a node, if it has one. -/
def Node.attr (m : Node) (key : String) : Option String := lastAttr key m.Attr

/-- Whether the node has an attribute `key` with the value `val`. -/
def Node.hasAttr (m : Node) (key val : String) : Bool :=
  m.Attr.any (fun a => decide (a.Key = key) && decide (a.Val = val))

/-- A name or id that, in lower case, contains "user", "email" or "login". -/
def usernameLike (std : GoStd) (v : String) : Bool :=
  Contains (std.ToLower v) "user" || Contains (std.ToLower v) "email" ||
    Contains (std.ToLower v) "login"

/-- An `input` whose type is "password". -/
def Node.isPasswordInput (m : Node) : Bool :=
  m.isInput && decide (m.attr "type" = some "password")

/-- An `input` whose type is "text" or "email" and whose name or id is
username-like. -/
def Node.isUsernameInput (std : GoStd) (m : Node) : Bool :=
  m.isInput && (decide (m.attr "type" = some "text") || decide (m.attr "type" = some "email")) &&
    ((match m.attr "name" with
      | some v => usernameLike std v
      | none => false) ||
     (match m.attr "id" with
      | some v => usernameLike std v
      | none => false))

/-- An `input` with an attribute `type="password"`. -/
def Node.hasPasswordType (m : Node) : Bool :=
  m.isInput && m.hasAttr "type" "password"

/-- An `input` with an attribute `type="text"` or `type="email"` and with a
`name` or `id` attribute whose value is username-like. -/
def Node.hasUsernameField (std : GoStd) (m : Node) : Bool :=
  m.isInput && (m.hasAttr "type" "text" || m.hasAttr "type" "email") &&
    m.Attr.any (fun a =>
      (decide (a.Key = "name") || decide (a.Key = "id")) && usernameLike std a.Val)

/-- No attribute key occurs twice on the node. -/
def Node.distinctKeys (m : Node) : Prop := (m.Attr.map Attribute.Key).Nodup

/-- A login form: a password input, and a text input named `username` nested
in a `div`. -/
def loginFormNode : Node :=
  .elem "form" [("action", "/login")] [
    .elem "div" [] [.elem "input" [("type", "text"), ("name", "username")] []],
    .elem "input" [("type", "password"), ("name", "pw")] []]

/-- A form with a password input and no other input. -/
def passwordOnlyFormNode : Node :=
  .elem "form" [("action", "/unlock")] [
    .elem "input" [("type", "password"), ("name", "pw")] []]

/-- A form with a username-like text input and no password input. -/
def usernameOnlyFormNode : Node :=
  .elem "form" [] [.elem "input" [("type", "email"), ("id", "Login-Email")] []]

/-- What a node contributes to `HasLoginForm`: an `input` with an attribute
`type="password"`, or a `form` that `isLoginForm` accepts. -/
def Node.signalsLogin (std : GoStd) (m : Node) : Bool :=
  m.hasPasswordType || (Node.isTag "form" m && isLoginForm std m)

/-- A page whose form has a password input and a text input named `username`. -/
def loginDoc : Node :=
  .document [.elem "html" [] [
    .elem "head" [] [.elem "title" [] [.text "Sign in"]],
    .elem "body" [] [.elem "h1" [] [.text "Sign in"], loginFormNode]]]

/-- A page whose form has a password input and no other input. -/
def passwordOnlyDoc : Node :=
  .document [.elem "html" [] [
    .elem "head" [] [.elem "title" [] [.text "Unlock"]],
    .elem "body" [] [passwordOnlyFormNode]]]

/-! ## Probing links -/

/-- A link is broken when the HEAD request fails or answers with a status of
400 or more. -/
def probeBroken (client : Client) (link : String) : Bool :=
  match client.Head link with
  | .error _ => true
  | .ok resp => decide (resp.StatusCode ≥ 400)

/-- The status reported for a link: 0 when the HEAD request fails, the status
of the answer otherwise. -/
def probeStatus (client : Client) (link : String) : Int :=
  match client.Head link with
  | .error _ => 0
  | .ok resp => resp.StatusCode

/-- The candidates: the internal links followed by the external ones, cut
after the tenth. -/
def sampleCandidates (data : CrawlData) : List String :=
  (data.InternalLinks ++ data.ExternalLinks).take 10

/-- The HEAD requests for a list of candidates: one per candidate, and a
second one right after it for a broken one. -/
def expectedProbes (client : Client) : List String → List String
  | [] => []
  | link :: rest =>
    (if probeBroken client link then [link, link] else [link]) ++ expectedProbes client rest

/-- The links `prefix0`, `prefix1`, ... -/
def numberedLinks (stem : String) (count : Nat) : List String :=
  (List.range count).map (fun i => stem ++ toString i)

/-- A client for which of the first ten pages, page 3 cannot be reached, page 5
answers 404 and page 7 answers 500; every other request is answered with 200. -/
def sampleClient : Client :=
  let answer : String → Except String Response := fun link =>
    if link = "https://example.com/p3" then .error "no such host"
    else if link = "https://example.com/p5" then
      .ok { StatusCode := 404, Status := "404 Not Found", Body := "" }
    else if link = "https://example.com/p7" then
      .ok { StatusCode := 500, Status := "500 Internal Server Error", Body := "" }
    else .ok { StatusCode := 200, Status := "200 OK", Body := "" }
  { Head := answer, Get := answer }

/-- Crawl data with 100 discovered links, 60 internal and 40 external. -/
def hundredLinks : CrawlData :=
  { emptyCrawlData with
    InternalLinks := numberedLinks "https://example.com/p" 60
    ExternalLinks := numberedLinks "https://other.com/q" 40 }

/-! ## Jobs and tasks over a run -/

/-- The stored status of a job: the status of the row `db.First` finds under
its key. -/
def statusOf (db : List CrawlResult) (id : String) : Option CrawlStatus :=
  (db.find? (fun r => decide (r.ID = id))).map CrawlResult.Status

/-- The status changes Queued→Running, Running→Completed, Running→Error and
Running→Queued. -/
def allowedTransition (old new : CrawlStatus) : Bool :=
  (decide (old = StatusQueued) && decide (new = StatusRunning)) ||
  (decide (old = StatusRunning) &&
    (decide (new = StatusCompleted) || decide (new = StatusError) ||
      decide (new = StatusQueued)))

/-- What a node offers as title: for a `title` element with a child, the
trimmed `Data` of its first child. -/
def Node.titleText (m : Node) : Option String :=
  if Node.isTag "title" m then
    match m.children with
    | [] => none
    | FirstChild :: _ => some (TrimSpace FirstChild.Data)
  else none

/-- The title offered by the last node of a list that offers one. -/
def lastTitle (l : List Node) : Option String := (l.filterMap Node.titleText).getLast?

/-- The first text child of a node with non-empty text. -/
def Node.firstText (m : Node) : Option String :=
  (m.children.find? (fun c => decide (c.Typ = NodeType.TextNode) && decide (c.Data ≠ ""))).map
    Node.Data

/-- The trimmed first non-empty text of the first `title` element of a tree in
document order. -/
def firstTitle (n : Node) : Option String :=
  match (n.nodes.filter (Node.isTag "title")).head? with
  | some t => t.firstText.map TrimSpace
  | none => none

/-- A page with a title in its head and an inline SVG that has a title of its own. -/
def svgTitleDoc : Node :=
  .document [.elem "html" [] [
    .elem "head" [] [.elem "title" [] [.text " Example page "]],
    .elem "body" [] [
      .elem "h1" [] [.text "Welcome"],
      .mk .ElementNode "svg" "svg" [] [
        .mk .ElementNode "title" "svg" [] [.text "Logo"],
        .mk .ElementNode "circle" "svg" [] []]]]]

/-- A page whose form has a username-like input and no password input. -/
def usernameOnlyDoc : Node :=
  .document [.elem "html" [] [
    .elem "head" [] [.elem "title" [] [.text "Newsletter"]],
    .elem "body" [] [usernameOnlyFormNode, .elem "input" [("type", "text")] []]]]

/-! ## Anchors -/

/-- The values of the non-empty `href` attributes of a node, in order, when the
node is an `a` element; nothing otherwise. -/
def Node.hrefs (m : Node) : List String :=
  if Node.isTag "a" m then
    (m.Attr.filter (fun a => decide (a.Key = "href") && decide (a.Val ≠ ""))).map Attribute.Val
  else []

/-- The non-empty `href` values of the anchors of a tree, in document order. -/
def anchorHrefs (n : Node) : List String := n.nodes.flatMap Node.hrefs

/-- The link classifier applied to a list of `href` values, one after the other. -/
def classifyAll (std : GoStd) (baseDomain baseURL : String) (hrefs : List String)
    (data : CrawlData) : CrawlData :=
  hrefs.foldl (fun d href => categorizeLink std href baseDomain baseURL d) data

/-- The two link lists of the crawl data. -/
def CrawlData.links (d : CrawlData) : List String × List String :=
  (d.InternalLinks, d.ExternalLinks)

/-- A page with a relative link, an external link, an anchor without `href`, an
anchor with an empty `href`, the relative link again, and a link to the host
of the page. -/
def linksDoc : Node :=
  .document [.elem "html" [] [
    .elem "body" [] [
      .elem "nav" [] [
        .elem "a" [("href", "/about")] [.text "About"],
        .elem "a" [("class", "ext"), ("href", "https://other.com/x")] [.text "Other"]],
      .elem "a" [("name", "top")] [],
      .elem "a" [("href", "")] [.text "Nowhere"],
      .elem "p" [] [.elem "a" [("href", "/about")] [.text "About again"]],
      .elem "a" [("href", "https://example.com/home")] [.text "Home"]]]]

/-! ## The pipeline, step by step

`performCrawl` takes the mutex only in its deferred function. The calls it makes
on the database handle are steps of their own: between two of them a call of
`StopCrawl` or a step of another goroutine can change the tables. `TaskPhase`
is where a goroutine stands between two steps, with the value of its local
variable `crawlResult`; `taskStep` is one step, taken on the service as it is
at that moment; `performCrawl` above is the run of these steps with nothing in
between. -/

/-- Where a goroutine that runs `performCrawl` stands. -/
inductive TaskPhase where
  | load
  | markRunning (crawlResult : CrawlResult)
  | crawl (crawlResult : CrawlResult)
  | storeLinks (crawlResultID : String) (brokenLinks : List BrokenLink) (k : Nat)
  | release
  | done
  deriving DecidableEq, Repr

/-- One step of `performCrawl`: the load of the record (line 201), the save of
the status "running" (lines 207-208), the crawl with the save of its result
(lines 211-238), the creation of one broken link (lines 241-244), and the
deferred function (lines 193-197). The crawl itself reads and writes nothing of
the service, so a call that falls into it is a call before this step. -/
def taskStep (env : CrawlEnv) (crawlResultID : String) (cs : CrawlerService) :
    TaskPhase → CrawlerService × TaskPhase
  | .load =>
    match dbFirst cs.db crawlResultID (env.dbFault 0) with
    | .error _ => (cs, .release)
    | .ok crawlResult => (cs, .markRunning crawlResult)
  | .markRunning crawlResult =>
    let crawlResult := { crawlResult with Status := StatusRunning }
    ({ cs with db := (dbSave cs.db crawlResult (env.dbFault 1)).2 }, .crawl crawlResult)
  | .crawl crawlResult =>
    match crawlURL env crawlResult.URL with
    | .error errMsg =>
      ({ cs with db := (dbSave cs.db (errorRecord crawlResult errMsg) (env.dbFault 2)).2 },
        .release)
    | .ok crawlData =>
      let crawlResult := completedRecord crawlResult crawlData env.now
      match dbSave cs.db crawlResult (env.dbFault 2) with
      | (some _, _) => (cs, .release)
      | (none, db) => ({ cs with db := db }, .storeLinks crawlResult.ID crawlData.BrokenLinks 3)
  | .storeLinks id brokenLinks k =>
    match brokenLinks with
    | [] => (cs, .release)
    | brokenLink :: rest =>
      ({ cs with
          brokenLinks :=
            (dbCreate cs.brokenLinks { brokenLink with CrawlResultID := id } (env.dbFault k)).2 },
        .storeLinks id rest (k + 1))
  | .release => (releaseSlot cs crawlResultID, .done)
  | .done => (cs, .done)

/-- The steps of one goroutine taken one after the other, with nothing in
between; `fuel` bounds their number. -/
def runTask (env : CrawlEnv) (crawlResultID : String) :
    Nat → CrawlerService → TaskPhase → CrawlerService × TaskPhase
  | 0, cs, phase => (cs, phase)
  | fuel + 1, cs, phase =>
    runTask env crawlResultID fuel (taskStep env crawlResultID cs phase).1
      (taskStep env crawlResultID cs phase).2

/-- A run like `headingsEnv` in which the database rejects the last save. -/
def rejectedSaveEnv : CrawlEnv :=
  { headingsEnv with
    dbFault := fun k => if k = 2 then some "sql: database is closed" else none }

/-- A run like `timeoutEnv` in which the database rejects the last save. -/
def rejectedErrorSaveEnv : CrawlEnv :=
  { timeoutEnv with
    dbFault := fun k => if k = 2 then some "sql: database is closed" else none }

/-! # Properties -/

/-! ## Lemmas on Go maps -/

namespace GoMap

theorem length_delete_le (m : GoMap) (k : String) : (delete m k).length ≤ m.length := by
  unfold delete
  exact List.length_filter_le _ _

theorem get_delete_self (m : GoMap) (k : String) : get (delete m k) k = false := by
  induction m with
  | nil => rfl
  | cons e rest ih =>
    obtain ⟨k', v⟩ := e
    by_cases h : k' = k
    · simpa [delete, List.filter_cons, h] using ih
    · simpa [delete, List.filter_cons, h, get] using ih

theorem get_delete_ne (m : GoMap) (k other : String) (hne : other ≠ k) :
    get (delete m k) other = get m other := by
  induction m with
  | nil => rfl
  | cons e rest ih =>
    obtain ⟨k', v⟩ := e
    by_cases h : k' = k
    · subst h
      have hne2 : k' ≠ other := fun h2 => hne h2.symm
      simpa [delete, List.filter_cons, get, hne2] using ih
    · by_cases h2 : k' = other
      · subst h2
        simp [delete, List.filter_cons, h, get]
      · simpa [delete, List.filter_cons, h, get, h2] using ih

theorem get_set_self (m : GoMap) (k : String) (v : Bool) : get (set m k v) k = v := by
  simp [set, get]

theorem delete_of_not_mem_keys (m : GoMap) (k : String) (h : k ∉ keys m) : delete m k = m := by
  unfold delete
  rw [List.filter_eq_self]
  intro e he
  have : e.1 ≠ k := by
    intro hk
    exact h (hk ▸ List.mem_map_of_mem Prod.fst he)
  simpa using this

theorem get_of_not_mem_keys (m : GoMap) (k : String) (h : k ∉ keys m) : get m k = false := by
  rw [← delete_of_not_mem_keys m k h]
  exact get_delete_self m k

theorem mem_keys_of_get (m : GoMap) (k : String) (h : get m k = true) : k ∈ keys m := by
  by_contra hk
  rw [get_of_not_mem_keys m k hk] at h
  exact Bool.false_ne_true h

theorem keys_delete (m : GoMap) (k : String) :
    keys (delete m k) = (keys m).filter (fun x => decide (x ≠ k)) := by
  induction m with
  | nil => rfl
  | cons e rest ih =>
    by_cases h : e.1 = k
    · simpa [delete, keys, List.filter_cons, h] using ih
    · simpa [delete, keys, List.filter_cons, h] using ih

theorem not_mem_keys_delete (m : GoMap) (k : String) : k ∉ keys (delete m k) := by
  rw [keys_delete]
  simp

theorem nodup_keys_delete (m : GoMap) (k : String) (h : (keys m).Nodup) :
    (keys (delete m k)).Nodup := by
  rw [keys_delete]
  exact h.filter _

theorem nodup_keys_set (m : GoMap) (k : String) (v : Bool) (h : (keys m).Nodup) :
    (keys (set m k v)).Nodup := by
  have h1 : keys (set m k v) = k :: keys (delete m k) := rfl
  rw [h1, List.nodup_cons]
  exact ⟨not_mem_keys_delete m k, nodup_keys_delete m k h⟩

end GoMap

/-! ## The registry -/

theorem StartCrawl_maxConcurrentCrawls (cs : CrawlerService) (id : String) :
    (StartCrawl cs id).cs.maxConcurrentCrawls = cs.maxConcurrentCrawls := by
  unfold StartCrawl
  split_ifs <;> rfl

theorem registryOK_step (N : Int) (s : Orchestrator) (st : Step) (h : RegistryOK N s) :
    RegistryOK N (step s st) := by
  obtain ⟨hN, hnd, hlen⟩ := h
  cases st with
  | start id =>
    refine ⟨by simpa [step] using (StartCrawl_maxConcurrentCrawls s.cs id).trans hN, ?_, ?_⟩
    · simp only [step, StartCrawl]
      split_ifs
      · exact hnd
      · exact hnd
      · exact GoMap.nodup_keys_set _ _ _ hnd
    · simp only [step, StartCrawl]
      split_ifs with h1 h2
      · exact hlen
      · exact hlen
      · have hd := GoMap.length_delete_le s.cs.activeCrawls id
        simp only [GoMap.len, GoMap.set, List.length_cons] at h2 ⊢
        simp only [GoMap.len] at hlen
        push_cast
        omega
  | stop id fault =>
    refine ⟨by simpa [step, StopCrawl] using hN, ?_, ?_⟩
    · simpa [step, StopCrawl] using GoMap.nodup_keys_delete _ id hnd
    · have hd := GoMap.length_delete_le s.cs.activeCrawls id
      simp only [GoMap.len] at hlen
      simp only [step, StopCrawl, GoMap.len]
      omega
  | exit id =>
    simp only [step]
    split_ifs
    · refine ⟨by simpa [releaseSlot] using hN, ?_, ?_⟩
      · simpa [releaseSlot] using GoMap.nodup_keys_delete _ id hnd
      · have hd := GoMap.length_delete_le s.cs.activeCrawls id
        simp only [GoMap.len] at hlen
        simp only [releaseSlot, GoMap.len]
        omega
    · exact ⟨hN, hnd, hlen⟩

theorem registryOK_run (N : Int) (steps : List Step) :
    ∀ s : Orchestrator, RegistryOK N s → RegistryOK N (run s steps) := by
  induction steps with
  | nil => intro s h; exact h
  | cons st rest ih =>
    intro s h
    exact ih (step s st) (registryOK_step N s st h)

/-- C1. From a service whose registry is empty and whose `maxConcurrentCrawls`
is not negative, every finite sequence of `StartCrawl`, `StopCrawl` and goroutine
exits leaves a registry with one entry per job and at most
`maxConcurrentCrawls` entries. -/
theorem registry_size_bound (cs : CrawlerService) (steps : List Step)
    (hN : 0 ≤ cs.maxConcurrentCrawls) (hempty : cs.activeCrawls = []) :
    ((run (Orchestrator.init cs) steps).cs.activeCrawls.keys).Nodup ∧
      (run (Orchestrator.init cs) steps).cs.activeCrawls.len ≤ cs.maxConcurrentCrawls := by
  have h0 : RegistryOK cs.maxConcurrentCrawls (Orchestrator.init cs) := by
    refine ⟨rfl, ?_, ?_⟩
    · simp [Orchestrator.init, hempty, GoMap.keys]
    · simpa [Orchestrator.init, hempty, GoMap.len] using hN
  exact (registryOK_run cs.maxConcurrentCrawls steps _ h0).2

/-- C1 at a service with room for two jobs: three admissions, a stop, an exit
and one more admission. -/
theorem registry_size_bound_witness :
    (0 : Int) ≤ ({ NewCrawlerService [] [] with maxConcurrentCrawls := 2 } : CrawlerService).maxConcurrentCrawls ∧
    ((run (Orchestrator.init { NewCrawlerService [] [] with maxConcurrentCrawls := 2 })
        [.start "a", .start "b", .start "c", .stop "a" none, .exit "b", .start "c"]).cs.activeCrawls.keys).Nodup ∧
    (run (Orchestrator.init { NewCrawlerService [] [] with maxConcurrentCrawls := 2 })
        [.start "a", .start "b", .start "c", .stop "a" none, .exit "b", .start "c"]).cs.activeCrawls.len ≤ 2 :=
  ⟨by decide,
    registry_size_bound { NewCrawlerService [] [] with maxConcurrentCrawls := 2 }
      [.start "a", .start "b", .start "c", .stop "a" none, .exit "b", .start "c"]
      (by decide) rfl⟩

/-- C2. `StartCrawl` on a job that is in the registry returns the error
"crawl already in progress", whatever the size of the registry and the value of
`maxConcurrentCrawls`, launches no goroutine and returns the service as it was. -/
theorem duplicate_admission (cs : CrawlerService) (jobID : String)
    (hmem : cs.activeCrawls.get jobID = true) :
    StartCrawl cs jobID =
      { err := some ("crawl already in progress for ID: " ++ jobID), cs := cs, launched := none } := by
  simp [StartCrawl, hmem]

/-- C2 at a registry that is full and holds the job. -/
theorem duplicate_admission_witness :
    (({ NewCrawlerService [] [] with maxConcurrentCrawls := 1, activeCrawls := [("a", true)] } :
        CrawlerService).activeCrawls.get "a" = true ∧
      ({ NewCrawlerService [] [] with maxConcurrentCrawls := 1, activeCrawls := [("a", true)] } :
        CrawlerService).activeCrawls.len ≥ 1) ∧
    StartCrawl { NewCrawlerService [] [] with maxConcurrentCrawls := 1, activeCrawls := [("a", true)] } "a" =
      { err := some "crawl already in progress for ID: a"
        cs := { NewCrawlerService [] [] with maxConcurrentCrawls := 1, activeCrawls := [("a", true)] }
        launched := none } :=
  ⟨by decide,
    duplicate_admission
      { NewCrawlerService [] [] with maxConcurrentCrawls := 1, activeCrawls := [("a", true)] } "a"
      (by decide)⟩

theorem startAll_spec (ids : List String) :
    ∀ cs : CrawlerService, ids.Nodup → (∀ id ∈ ids, id ∉ cs.activeCrawls.keys) →
      cs.activeCrawls.len + (ids.length : Int) ≤ cs.maxConcurrentCrawls →
      (startAll cs ids).1 = List.replicate ids.length none ∧
      (startAll cs ids).2 =
        { cs with activeCrawls := (ids.reverse.map (fun id => (id, true))) ++ cs.activeCrawls } := by
  induction ids with
  | nil => intro cs _ _ _; simp [startAll]
  | cons id rest ih =>
    intro cs hnd hfresh hroom
    have hid : id ∉ cs.activeCrawls.keys := hfresh id (List.mem_cons_self _ _)
    have hget : cs.activeCrawls.get id = false := GoMap.get_of_not_mem_keys _ _ hid
    have hlt : ¬ cs.activeCrawls.len ≥ cs.maxConcurrentCrawls := by
      simp only [List.length_cons] at hroom
      push_cast at hroom
      omega
    have hstart : StartCrawl cs id =
        { err := none, cs := { cs with activeCrawls := (id, true) :: cs.activeCrawls },
          launched := some id } := by
      simp [StartCrawl, hget, hlt, GoMap.set, GoMap.delete_of_not_mem_keys _ _ hid]
    obtain ⟨hidrest, hndrest⟩ := List.nodup_cons.mp hnd
    have hfresh2 : ∀ j ∈ rest, j ∉ GoMap.keys ((id, true) :: cs.activeCrawls) := by
      intro j hj hmem
      simp only [GoMap.keys, List.map_cons, List.mem_cons] at hmem
      rcases hmem with h | h
      · exact hidrest (h ▸ hj)
      · exact hfresh j (List.mem_cons_of_mem _ hj) h
    have hroom2 : GoMap.len ((id, true) :: cs.activeCrawls) + (rest.length : Int) ≤
        cs.maxConcurrentCrawls := by
      simp only [GoMap.len, List.length_cons] at hroom ⊢
      push_cast at hroom ⊢
      omega
    have := ih { cs with activeCrawls := (id, true) :: cs.activeCrawls } hndrest hfresh2 hroom2
    simp only [startAll, hstart, this, List.length_cons, List.replicate_succ, true_and]
    simp [List.reverse_cons]

theorem get_registered (ids : List String) (id : String) :
    GoMap.get (ids.map (fun j => (j, true))) id = true ↔ id ∈ ids := by
  induction ids with
  | nil => simp [GoMap.get]
  | cons j rest ih =>
    by_cases h : j = id
    · simp [GoMap.get, h]
    · have h2 : ¬ id = j := fun e => h e.symm
      simp [GoMap.get, h, h2, ih]

/-- C3. With `maxConcurrentCrawls = N` and an empty registry, `StartCrawl`
on N pairwise distinct jobs returns no error and the registry then holds
exactly those jobs; `StartCrawl` on one more job returns "maximum concurrent
crawls reached" and the service as it was; once one of the N jobs has left the
registry, by the exit of its goroutine or by `StopCrawl`, `StartCrawl` on that
further job returns no error and registers it. -/
theorem capacity_gate (cs : CrawlerService) (ids : List String) (extra : String)
    (hempty : cs.activeCrawls = [])
    (hlen : (ids.length : Int) = cs.maxConcurrentCrawls) (hnd : ids.Nodup)
    (hextra : extra ∉ ids) :
    (startAll cs ids).1 = List.replicate ids.length none ∧
    (∀ id, (startAll cs ids).2.activeCrawls.get id = true ↔ id ∈ ids) ∧
    StartCrawl (startAll cs ids).2 extra =
      { err := some "maximum concurrent crawls reached", cs := (startAll cs ids).2,
        launched := none } ∧
    ∀ j ∈ ids,
      ((StartCrawl (releaseSlot (startAll cs ids).2 j) extra).err = none ∧
        (StartCrawl (releaseSlot (startAll cs ids).2 j) extra).launched = some extra ∧
        (StartCrawl (releaseSlot (startAll cs ids).2 j) extra).cs.activeCrawls.get extra = true) ∧
      ∀ fault,
        (StartCrawl (StopCrawl (startAll cs ids).2 j fault).2 extra).err = none ∧
        (StartCrawl (StopCrawl (startAll cs ids).2 j fault).2 extra).launched = some extra ∧
        (StartCrawl (StopCrawl (startAll cs ids).2 j fault).2 extra).cs.activeCrawls.get extra = true := by
  obtain ⟨herrs, hcs⟩ := startAll_spec ids cs hnd (by simp [hempty, GoMap.keys])
    (by simp [hempty, GoMap.len, hlen])
  have hreg : (startAll cs ids).2.activeCrawls = ids.reverse.map (fun id => (id, true)) := by
    rw [hcs]; simp [hempty]
  have hmax : (startAll cs ids).2.maxConcurrentCrawls = cs.maxConcurrentCrawls := by rw [hcs]
  have hmem : ∀ id, (startAll cs ids).2.activeCrawls.get id = true ↔ id ∈ ids := by
    intro id
    rw [hreg, get_registered]
    exact List.mem_reverse
  have hgetx : (startAll cs ids).2.activeCrawls.get extra = false := by
    cases hx : (startAll cs ids).2.activeCrawls.get extra
    · rfl
    · exact absurd ((hmem extra).mp hx) hextra
  have hfull : (startAll cs ids).2.activeCrawls.len = cs.maxConcurrentCrawls := by
    rw [hreg]; simp [GoMap.len, hlen]
  have hafter : ∀ j ∈ ids, ∀ c : CrawlerService,
      c.activeCrawls = (startAll cs ids).2.activeCrawls.delete j →
      c.maxConcurrentCrawls = cs.maxConcurrentCrawls →
      (StartCrawl c extra).err = none ∧ (StartCrawl c extra).launched = some extra ∧
        (StartCrawl c extra).cs.activeCrawls.get extra = true := by
    intro j hj c hc hcmax
    have hne : extra ≠ j := fun e => hextra (e ▸ hj)
    have hg : c.activeCrawls.get extra = false := by
      rw [hc, GoMap.get_delete_ne _ _ _ hne]; exact hgetx
    have hlt : ¬ c.activeCrawls.len ≥ c.maxConcurrentCrawls := by
      have hjin : (j, true) ∈ (startAll cs ids).2.activeCrawls := by
        rw [hreg]; simpa using hj
      have hdrop : ((startAll cs ids).2.activeCrawls.delete j).length <
          (startAll cs ids).2.activeCrawls.length := by
        unfold GoMap.delete
        exact List.length_filter_lt_length_iff_exists.mpr ⟨(j, true), hjin, by simp⟩
      simp only [GoMap.len] at hfull ⊢
      rw [hc, hcmax]
      omega
    simp [StartCrawl, hg, hlt, GoMap.get_set_self]
  refine ⟨herrs, hmem, ?_, ?_⟩
  · have : (startAll cs ids).2.activeCrawls.len ≥ (startAll cs ids).2.maxConcurrentCrawls := by
      rw [hfull, hmax]
    simp [StartCrawl, hgetx, this]
  · intro j hj
    refine ⟨hafter j hj _ rfl (by simpa [releaseSlot] using hmax), ?_⟩
    intro fault
    exact hafter j hj _ rfl (by simpa [StopCrawl] using hmax)

/-- C3 at the constructed service, whose `maxConcurrentCrawls` is 5. -/
theorem capacity_gate_witness :
    (startAll (NewCrawlerService [] []) ["a", "b", "c", "d", "e"]).1 =
      [none, none, none, none, none] ∧
    (StartCrawl (startAll (NewCrawlerService [] []) ["a", "b", "c", "d", "e"]).2 "f").err =
      some "maximum concurrent crawls reached" ∧
    (StartCrawl (releaseSlot (startAll (NewCrawlerService [] []) ["a", "b", "c", "d", "e"]).2 "c")
      "f").err = none := by
  have h := capacity_gate (NewCrawlerService [] []) ["a", "b", "c", "d", "e"] "f"
    rfl (by decide) (by decide) (by decide)
  refine ⟨h.1, ?_, ?_⟩
  · rw [h.2.2.1]
  · exact (h.2.2.2 "c" (by decide)).1.1

theorem performCrawlBody_activeCrawls (env : CrawlEnv) (cs : CrawlerService) (id : String) :
    (performCrawlBody env cs id).activeCrawls = cs.activeCrawls := by
  unfold performCrawlBody
  cases dbFirst cs.db id (env.dbFault 0) with
  | error e => rfl
  | ok r =>
    simp only
    cases crawlURL env r.URL with
    | error e => rfl
    | ok d =>
      simp only
      split <;> rfl

/-- C4. Whatever the database, the network and the parser answer, after
`performCrawl` the job is not in the registry and every other job is in it
exactly if it was before: the registry is the old one with the job deleted. -/
theorem slot_released (env : CrawlEnv) (cs : CrawlerService) (jobID : String) :
    (performCrawl env cs jobID).activeCrawls = cs.activeCrawls.delete jobID ∧
    IsCrawlActive (performCrawl env cs jobID) jobID = false ∧
    ∀ other, other ≠ jobID →
      IsCrawlActive (performCrawl env cs jobID) other = IsCrawlActive cs other := by
  have h : (performCrawl env cs jobID).activeCrawls = cs.activeCrawls.delete jobID := by
    simp [performCrawl, releaseSlot, performCrawlBody_activeCrawls]
  refine ⟨h, ?_, ?_⟩
  · simp [IsCrawlActive, h, GoMap.get_delete_self]
  · intro other hne
    simp [IsCrawlActive, h, GoMap.get_delete_ne _ _ _ hne]

/-! ## The pipeline -/

theorem dbFirst_ID (db : List CrawlResult) (id : String) (fault : Option String)
    (r : CrawlResult) (h : dbFirst db id fault = .ok r) : r.ID = id := by
  unfold dbFirst at h
  cases fault with
  | some e => simp at h
  | none =>
    simp only at h
    cases hf : db.find? (fun r => decide (r.ID = id)) with
    | none => simp [hf] at h
    | some x =>
      simp only [hf, Except.ok.injEq] at h
      subst h
      simpa using List.find?_some hf

theorem find_map_replace (r : CrawlResult) (db : List CrawlResult)
    (h : db.any (fun x => decide (x.ID = r.ID)) = true) :
    (db.map (fun x => if x.ID = r.ID then r else x)).find? (fun x => decide (x.ID = r.ID)) =
      some r := by
  induction db with
  | nil => simp at h
  | cons x rest ih =>
    by_cases hx : x.ID = r.ID
    · simp [hx]
    · have hrest : rest.any (fun x => decide (x.ID = r.ID)) = true := by
        simpa [hx] using h
      simpa [hx] using ih hrest

theorem find_append_new (r : CrawlResult) (db : List CrawlResult)
    (h : ¬ db.any (fun x => decide (x.ID = r.ID)) = true) :
    (db ++ [r]).find? (fun x => decide (x.ID = r.ID)) = some r := by
  induction db with
  | nil => simp
  | cons x rest ih =>
    have hx : ¬ x.ID = r.ID := by
      intro e; exact h (by simp [e])
    have hrest : ¬ rest.any (fun x => decide (x.ID = r.ID)) = true := by
      intro e; exact h (by simp only [List.any_cons, e, Bool.or_true])
    simpa [hx] using ih hrest

/-- A record that `db.Save` accepted is the one `db.First` finds under its key. -/
theorem dbFirst_dbSave (db : List CrawlResult) (r : CrawlResult) :
    dbFirst (dbSave db r none).2 r.ID none = .ok r := by
  unfold dbSave dbFirst
  simp only
  split_ifs with h
  · simp only [find_map_replace r db h]
  · simp only [find_append_new r db h]

/-! ## The steps of the pipeline -/

theorem runTask_done (env : CrawlEnv) (id : String) (fuel : Nat) (cs : CrawlerService) :
    runTask env id fuel cs .done = (cs, .done) := by
  induction fuel with
  | zero => rfl
  | succ n ih => rw [runTask]; exact ih

theorem runTask_release (env : CrawlEnv) (id : String) (fuel : Nat) (cs : CrawlerService)
    (h : 1 ≤ fuel) : runTask env id fuel cs .release = (releaseSlot cs id, .done) := by
  obtain ⟨n, rfl⟩ : ∃ n, fuel = n + 1 := ⟨fuel - 1, by omega⟩
  rw [runTask]
  exact runTask_done env id n _

theorem runTask_storeLinks (env : CrawlEnv) (id rid : String) (links : List BrokenLink) :
    ∀ (k fuel : Nat) (cs : CrawlerService), links.length + 2 ≤ fuel →
      runTask env id fuel cs (.storeLinks rid links k) =
        (releaseSlot
          { cs with brokenLinks := saveBrokenLinks env.dbFault rid links cs.brokenLinks k } id,
          .done) := by
  induction links with
  | nil =>
    intro k fuel cs h
    obtain ⟨n, rfl⟩ : ∃ n, fuel = n + 1 := ⟨fuel - 1, by simp at h; omega⟩
    rw [runTask]
    simp only [taskStep, saveBrokenLinks]
    exact runTask_release env id n cs (by simp at h; omega)
  | cons b rest ih =>
    intro k fuel cs h
    obtain ⟨n, rfl⟩ : ∃ n, fuel = n + 1 := ⟨fuel - 1, by simp at h; omega⟩
    rw [runTask]
    simp only [taskStep, saveBrokenLinks]
    rw [ih (k + 1) n _ (by simp at h ⊢; omega)]

/-- The run of the steps of a goroutine with nothing in between ends, and ends
in the service that `performCrawl` returns. -/
theorem runTask_eq_performCrawl (env : CrawlEnv) (id : String) (cs : CrawlerService) :
    ∃ n, ∀ fuel, n ≤ fuel → runTask env id fuel cs .load = (performCrawl env cs id, .done) := by
  cases hload : dbFirst cs.db id (env.dbFault 0) with
  | error e =>
    refine ⟨2, fun fuel h => ?_⟩
    obtain ⟨n, rfl⟩ : ∃ n, fuel = n + 1 := ⟨fuel - 1, by omega⟩
    rw [runTask]
    simp only [taskStep, hload]
    rw [runTask_release env id n cs (by omega)]
    simp [performCrawl, performCrawlBody, hload]
  | ok r =>
    cases hc : crawlURL env r.URL with
    | error e =>
      refine ⟨4, fun fuel h => ?_⟩
      obtain ⟨n, rfl⟩ : ∃ n, fuel = n + 1 + 1 + 1 + 1 := ⟨fuel - 4, by omega⟩
      rw [runTask, runTask, runTask]
      simp only [taskStep, hload, hc]
      rw [runTask_release env id _ _ (by omega)]
      simp [performCrawl, performCrawlBody, hload, hc]
    | ok d =>
      refine ⟨d.BrokenLinks.length + 5, fun fuel h => ?_⟩
      obtain ⟨n, rfl⟩ : ∃ n, fuel = n + 1 + 1 + 1 := ⟨fuel - 3, by omega⟩
      rw [runTask, runTask, runTask]
      simp only [taskStep, hload, hc]
      cases hs : dbSave (dbSave cs.db { r with Status := StatusRunning } (env.dbFault 1)).2
          (completedRecord { r with Status := StatusRunning } d env.now) (env.dbFault 2) with
      | mk err db2 =>
        cases err with
        | some e2 =>
          simp only
          rw [runTask_release env id _ _ (by omega)]
          simp [performCrawl, performCrawlBody, hload, hc, hs]
        | none =>
          simp only
          rw [runTask_storeLinks env id _ _ 3 _ _ (by omega)]
          simp [performCrawl, performCrawlBody, hload, hc, hs]

/-! ## The outcome of the pipeline -/

theorem dbSave_rejected (db : List CrawlResult) (r : CrawlResult) (m : String) :
    dbSave db r (some m) = (some m, db) := by
  simp [dbSave]

theorem dbSave_accepted_fst (db : List CrawlResult) (r : CrawlResult) :
    (dbSave db r none).1 = none := by
  simp only [dbSave]
  split_ifs <;> rfl

/-- The step of `performCrawl` that follows the crawl, taken in any state of the
service: the record goes to `db.Save`, and the table is what that call leaves. -/
theorem taskStep_crawl_db (env : CrawlEnv) (id : String) (cs : CrawlerService)
    (r : CrawlResult) :
    (∀ e, crawlURL env r.URL = .error e →
      (taskStep env id cs (.crawl r)).1.db =
        (dbSave cs.db (errorRecord r e) (env.dbFault 2)).2) ∧
    (∀ d, crawlURL env r.URL = .ok d →
      (taskStep env id cs (.crawl r)).1.db =
        (dbSave cs.db (completedRecord r d env.now) (env.dbFault 2)).2) := by
  refine ⟨?_, ?_⟩
  · intro e he
    simp only [taskStep, he]
  · intro d hd
    simp only [taskStep, hd]
    cases hf : env.dbFault 2 with
    | some m => simp [dbSave_rejected]
    | none =>
      cases hs : dbSave cs.db (completedRecord r d env.now) none with
      | mk err db2 =>
        have h1 := dbSave_accepted_fst cs.db (completedRecord r d env.now)
        rw [hs] at h1
        simp only at h1
        subst h1
        rfl

/-- The table after `performCrawl` ran with no other call in between. -/
theorem performCrawl_db (env : CrawlEnv) (cs : CrawlerService) (id : String)
    (loaded : CrawlResult) (hload : dbFirst cs.db id (env.dbFault 0) = .ok loaded) :
    (∀ e, crawlURL env loaded.URL = .error e →
      (performCrawl env cs id).db =
        (dbSave (dbSave cs.db { loaded with Status := StatusRunning } (env.dbFault 1)).2
          (errorRecord { loaded with Status := StatusRunning } e) (env.dbFault 2)).2) ∧
    (∀ d, crawlURL env loaded.URL = .ok d →
      (performCrawl env cs id).db =
        (dbSave (dbSave cs.db { loaded with Status := StatusRunning } (env.dbFault 1)).2
          (completedRecord { loaded with Status := StatusRunning } d env.now)
          (env.dbFault 2)).2) := by
  refine ⟨?_, ?_⟩
  · intro e he
    simp [performCrawl, releaseSlot, performCrawlBody, hload, he]
  · intro d hd
    simp only [performCrawl, releaseSlot, performCrawlBody, hload, hd]
    cases hf : env.dbFault 2 with
    | some m => simp [dbSave_rejected]
    | none =>
      cases hs : dbSave (dbSave cs.db { loaded with Status := StatusRunning } (env.dbFault 1)).2
          (completedRecord { loaded with Status := StatusRunning } d env.now) none with
      | mk err db2 =>
        have h1 := dbSave_accepted_fst
          (dbSave cs.db { loaded with Status := StatusRunning } (env.dbFault 1)).2
          (completedRecord { loaded with Status := StatusRunning } d env.now)
        rw [hs] at h1
        simp only at h1
        subst h1
        rfl

/-- C5, as the code has it. Let `performCrawl` have loaded the job. It marks the
record as running and crawls. When `crawlURL` fails with `e`, the record it
hands to its last `db.Save` is the loaded one with status "error" and error
message `e`, every other column as loaded; when `crawlURL` returns data, it is
the loaded one with status "completed", the title, HTML version, heading
counts, login-form flag and link counts of the data, and the time of the clock.
In whatever state the service is when that `db.Save` is issued: if the database
accepts the call, the row of the job is that record afterwards; if it rejects
the call, the table stays as it was, so the outcome is not stored. With no other
call in between, the table after `performCrawl` is what the two calls of
`db.Save` leave. A failed `client.Get` (a timeout among them) makes `crawlURL`
fail with a message that ends in the error of the client. -/
theorem pipeline_outcome (env : CrawlEnv) (cs : CrawlerService) (jobID : String)
    (loaded : CrawlResult) (hload : dbFirst cs.db jobID (env.dbFault 0) = .ok loaded) :
    taskStep env jobID cs .load = (cs, .markRunning loaded) ∧
    (∀ cs1 : CrawlerService,
      (taskStep env jobID cs1 (.markRunning loaded)).2 =
        .crawl { loaded with Status := StatusRunning }) ∧
    (∀ e, crawlURL env loaded.URL = .error e →
      ∃ final : CrawlResult,
        final = { loaded with Status := StatusError, ErrorMessage := some e } ∧
        (∀ cs2 : CrawlerService,
          (taskStep env jobID cs2 (.crawl { loaded with Status := StatusRunning })).1.db =
              (dbSave cs2.db final (env.dbFault 2)).2 ∧
            (env.dbFault 2 = none →
              dbFirst (taskStep env jobID cs2
                (.crawl { loaded with Status := StatusRunning })).1.db jobID none = .ok final) ∧
            (∀ m, env.dbFault 2 = some m →
              (taskStep env jobID cs2 (.crawl { loaded with Status := StatusRunning })).1.db =
                cs2.db)) ∧
        (performCrawl env cs jobID).db =
          (dbSave (dbSave cs.db { loaded with Status := StatusRunning } (env.dbFault 1)).2
            final (env.dbFault 2)).2) ∧
    (∀ d, crawlURL env loaded.URL = .ok d →
      ∃ final : CrawlResult,
        final =
          { loaded with
            Status := StatusCompleted
            Title := d.Title
            HTMLVersion := d.HTMLVersion
            H1Count := d.HeadingCounts.H1
            H2Count := d.HeadingCounts.H2
            H3Count := d.HeadingCounts.H3
            H4Count := d.HeadingCounts.H4
            H5Count := d.HeadingCounts.H5
            H6Count := d.HeadingCounts.H6
            HasLoginForm := d.HasLoginForm
            InternalLinksCount := d.InternalLinks.length
            ExternalLinksCount := d.ExternalLinks.length
            BrokenLinksCount := d.BrokenLinks.length
            CrawledAt := env.now } ∧
        (∀ cs2 : CrawlerService,
          (taskStep env jobID cs2 (.crawl { loaded with Status := StatusRunning })).1.db =
              (dbSave cs2.db final (env.dbFault 2)).2 ∧
            (env.dbFault 2 = none →
              dbFirst (taskStep env jobID cs2
                (.crawl { loaded with Status := StatusRunning })).1.db jobID none = .ok final) ∧
            (∀ m, env.dbFault 2 = some m →
              (taskStep env jobID cs2 (.crawl { loaded with Status := StatusRunning })).1.db =
                cs2.db)) ∧
        (performCrawl env cs jobID).db =
          (dbSave (dbSave cs.db { loaded with Status := StatusRunning } (env.dbFault 1)).2
            final (env.dbFault 2)).2) ∧
    (∀ e, env.client.Get loaded.URL = .error e →
      crawlURL env loaded.URL = .error ("failed to fetch URL: " ++ e)) := by
  have hid : loaded.ID = jobID := dbFirst_ID _ _ _ _ hload
  have hstep : ∀ (final : CrawlResult) (cs2 : CrawlerService), final.ID = jobID →
      (taskStep env jobID cs2 (.crawl { loaded with Status := StatusRunning })).1.db =
        (dbSave cs2.db final (env.dbFault 2)).2 →
      (taskStep env jobID cs2 (.crawl { loaded with Status := StatusRunning })).1.db =
          (dbSave cs2.db final (env.dbFault 2)).2 ∧
        (env.dbFault 2 = none →
          dbFirst (taskStep env jobID cs2
            (.crawl { loaded with Status := StatusRunning })).1.db jobID none = .ok final) ∧
        (∀ m, env.dbFault 2 = some m →
          (taskStep env jobID cs2 (.crawl { loaded with Status := StatusRunning })).1.db =
            cs2.db) := by
    intro final cs2 hfid hdb
    refine ⟨hdb, ?_, ?_⟩
    · intro hok
      rw [hdb, hok, ← hfid]
      exact dbFirst_dbSave _ final
    · intro m hm
      rw [hdb, hm, dbSave_rejected]
  refine ⟨?_, ?_, ?_, ?_, ?_⟩
  · simp only [taskStep, hload]
  · intro cs1
    simp only [taskStep]
  · intro e he
    refine ⟨_, rfl, fun cs2 => hstep _ cs2 hid ?_, ?_⟩
    · exact (taskStep_crawl_db env jobID cs2 { loaded with Status := StatusRunning }).1 e he
    · exact (performCrawl_db env cs jobID loaded hload).1 e he
  · intro d hd
    refine ⟨_, rfl, fun cs2 => hstep _ cs2 hid ?_, ?_⟩
    · exact (taskStep_crawl_db env jobID cs2 { loaded with Status := StatusRunning }).2 d hd
    · exact (performCrawl_db env cs jobID loaded hload).2 d hd
  · intro e he
    simp [crawlURL, he]


/-- C5 at a job whose fetch times out, and at a job whose page has two `h1`
and one `h2`. -/
theorem pipeline_outcome_witness :
    (dbFirst (NewCrawlerService [sampleJob] []).db "job-1" (timeoutEnv.dbFault 0) = .ok sampleJob ∧
      dbFirst (performCrawl timeoutEnv (NewCrawlerService [sampleJob] []) "job-1").db "job-1" none =
        .ok { sampleJob with
          Status := "error"
          ErrorMessage := some ("failed to fetch URL: " ++
            GoURL.getError "https://example.com"
              "context deadline exceeded (Client.Timeout exceeded while awaiting headers)") }) ∧
    (dbFirst (NewCrawlerService [sampleJob] []).db "job-1" (headingsEnv.dbFault 0) = .ok sampleJob ∧
      dbFirst (performCrawl headingsEnv (NewCrawlerService [sampleJob] []) "job-1").db "job-1" none =
        .ok { sampleJob with
          Status := "completed"
          Title := "Two headings"
          HTMLVersion := "HTML5"
          H1Count := 2
          H2Count := 1
          CrawledAt := 1700000000 }) := by
  refine ⟨⟨by decide, ?_⟩, ⟨by decide, ?_⟩⟩
  · obtain ⟨final, hfinal, _, hdb⟩ :=
      (pipeline_outcome timeoutEnv (NewCrawlerService [sampleJob] []) "job-1" sampleJob
        (by decide)).2.2.1 _ (by decide : crawlURL timeoutEnv sampleJob.URL =
          .error ("failed to fetch URL: " ++ GoURL.getError "https://example.com"
            "context deadline exceeded (Client.Timeout exceeded while awaiting headers)"))
    rw [hdb, hfinal]
    decide
  · obtain ⟨final, hfinal, _, hdb⟩ :=
      (pipeline_outcome headingsEnv (NewCrawlerService [sampleJob] []) "job-1" sampleJob
        (by decide)).2.2.2.1 (extractHTMLData goStd "example.com" "https://example.com"
          headingsDoc emptyCrawlData) (by decide)
    rw [hdb, hfinal]
    decide

/-- C5 as stated fails: when the database rejects the last `db.Save`, the
outcome is not stored. The job is loaded and marked as running; in the first run
the crawl returns data, in the second the fetch times out; in both the row of
the job is afterwards the loaded record with status "running", without the
title and heading counts of the page and without an error message. -/
theorem pipeline_outcome_counterexample :
    dbFirst (NewCrawlerService [sampleJob] []).db "job-1" (rejectedSaveEnv.dbFault 0) =
        .ok sampleJob ∧
      (crawlURL rejectedSaveEnv sampleJob.URL).toOption.map
          (fun d => (d.Title, d.HeadingCounts.H1, d.HeadingCounts.H2)) =
        some ("Two headings", 2, 1) ∧
      dbFirst (performCrawl rejectedSaveEnv (NewCrawlerService [sampleJob] []) "job-1").db
          "job-1" none =
        .ok { sampleJob with Status := "running" } ∧
      dbFirst (NewCrawlerService [sampleJob] []).db "job-1" (rejectedErrorSaveEnv.dbFault 0) =
        .ok sampleJob ∧
      crawlURL rejectedErrorSaveEnv sampleJob.URL =
        .error ("failed to fetch URL: " ++ GoURL.getError "https://example.com"
          "context deadline exceeded (Client.Timeout exceeded while awaiting headers)") ∧
      dbFirst (performCrawl rejectedErrorSaveEnv (NewCrawlerService [sampleJob] []) "job-1").db
          "job-1" none =
        .ok { sampleJob with Status := "running" } := by
  decide

/-! ## Heading counts -/

theorem headingTally_append (l1 l2 : List Node) :
    headingTally (l1 ++ l2) = (headingTally l1).add (headingTally l2) := by
  simp [headingTally, HeadingCounts.add]

theorem headingTally_nil :
    headingTally [] = { H1 := 0, H2 := 0, H3 := 0, H4 := 0, H5 := 0, H6 := 0 } := by
  simp [headingTally]

theorem headingAdd_assoc (a b c : HeadingCounts) : (a.add b).add c = a.add (b.add c) := by
  simp [HeadingCounts.add, Int.add_assoc]

theorem headingAdd_zero (a : HeadingCounts) :
    a.add { H1 := 0, H2 := 0, H3 := 0, H4 := 0, H5 := 0, H6 := 0 } = a := by
  simp [HeadingCounts.add]

theorem categorizeLink_HeadingCounts (std : GoStd) (href bd bu : String) (data : CrawlData) :
    (categorizeLink std href bd bu data).HeadingCounts = data.HeadingCounts := by
  unfold categorizeLink
  split
  · rfl
  · split_ifs
    · rfl
    · rfl
    · split <;> rfl

theorem foldl_preserves {α β γ : Type} (f : β → α → β) (g : β → γ)
    (h : ∀ b a, g (f b a) = g b) (l : List α) : ∀ b, g (l.foldl f b) = g b := by
  induction l with
  | nil => intro b; rfl
  | cons a rest ih => intro b; simp only [List.foldl_cons]; rw [ih, h]

theorem visitHTML_HeadingCounts (attrs : List Attribute) (data : CrawlData) :
    (visitHTML attrs data).HeadingCounts = data.HeadingCounts := by
  unfold visitHTML
  have h := foldl_preserves
    (fun (d : CrawlData) (attr : Attribute) =>
      if attr.Key = "version" then { d with HTMLVersion := "HTML " ++ attr.Val } else d)
    CrawlData.HeadingCounts (by intro b a; beta_reduce; split_ifs <;> rfl) attrs data
  simp only
  split_ifs
  · exact h
  · exact h

theorem visitTitle_HeadingCounts (children : List Node) (data : CrawlData) :
    (visitTitle children data).HeadingCounts = data.HeadingCounts := by
  cases children <;> rfl

theorem visitAnchor_HeadingCounts (std : GoStd) (bd bu : String) (attrs : List Attribute)
    (data : CrawlData) :
    (visitAnchor std bd bu attrs data).HeadingCounts = data.HeadingCounts := by
  unfold visitAnchor
  apply foldl_preserves
  intro b a
  beta_reduce
  split_ifs
  · exact categorizeLink_HeadingCounts std _ bd bu b
  · rfl

theorem visitInput_HeadingCounts (attrs : List Attribute) (data : CrawlData) :
    (visitInput attrs data).HeadingCounts = data.HeadingCounts := by
  unfold visitInput
  apply foldl_preserves
  intro b a
  beta_reduce
  split_ifs <;> rfl

theorem headingTally_other (n : Node)
    (h : ¬ (n.Typ = NodeType.ElementNode ∧
      (n.Data = "h1" ∨ n.Data = "h2" ∨ n.Data = "h3" ∨ n.Data = "h4" ∨ n.Data = "h5" ∨
        n.Data = "h6"))) :
    headingTally [n] = { H1 := 0, H2 := 0, H3 := 0, H4 := 0, H5 := 0, H6 := 0 } := by
  simp only [headingTally, List.filter_cons, List.filter_nil, Node.isTag]
  by_cases ht : n.Typ = NodeType.ElementNode
  · have hd : ¬ (n.Data = "h1" ∨ n.Data = "h2" ∨ n.Data = "h3" ∨ n.Data = "h4" ∨
        n.Data = "h5" ∨ n.Data = "h6") := fun hd => h ⟨ht, hd⟩
    simp only [not_or] at hd
    obtain ⟨h1, h2, h3, h4, h5, h6⟩ := hd
    simp [h1, h2, h3, h4, h5, h6]
  · simp [ht]

theorem visitNode_HeadingCounts (std : GoStd) (bd bu : String) (n : Node) (data : CrawlData) :
    (visitNode std bd bu n data).HeadingCounts = data.HeadingCounts.add (headingTally [n]) := by
  unfold visitNode
  by_cases ht : n.Typ = NodeType.ElementNode
  · rw [if_pos ht]
    by_cases h1 : n.Data = "h1"
    · simp [h1, headingTally, Node.isTag, ht, HeadingCounts.add]
    by_cases h2 : n.Data = "h2"
    · simp [h2, headingTally, Node.isTag, ht, HeadingCounts.add]
    by_cases h3 : n.Data = "h3"
    · simp [h3, headingTally, Node.isTag, ht, HeadingCounts.add]
    by_cases h4 : n.Data = "h4"
    · simp [h4, headingTally, Node.isTag, ht, HeadingCounts.add]
    by_cases h5 : n.Data = "h5"
    · simp [h5, headingTally, Node.isTag, ht, HeadingCounts.add]
    by_cases h6 : n.Data = "h6"
    · simp [h6, headingTally, Node.isTag, ht, HeadingCounts.add]
    rw [headingTally_other n (by simp [h1, h2, h3, h4, h5, h6]), headingAdd_zero]
    simp only [h1, h2, h3, h4, h5, h6, if_false]
    split_ifs
    · exact visitHTML_HeadingCounts _ _
    · exact visitTitle_HeadingCounts _ _
    · exact visitAnchor_HeadingCounts _ _ _ _ _
    · rfl
    · rfl
    · exact visitInput_HeadingCounts _ _
    · rfl
  · rw [if_neg ht, headingTally_other n (fun h => ht h.1), headingAdd_zero]

mutual
theorem extractHTMLData_HeadingCounts (std : GoStd) (bd bu : String) :
    ∀ (n : Node) (data : CrawlData),
      (extractHTMLData std bd bu n data).HeadingCounts =
        data.HeadingCounts.add (headingTally n.nodes)
  | .mk t d ns a cs, data => by
    rw [extractHTMLData, extractHTMLDataChildren_HeadingCounts std bd bu cs,
      visitNode_HeadingCounts, headingAdd_assoc, ← headingTally_append]
    rfl
theorem extractHTMLDataChildren_HeadingCounts (std : GoStd) (bd bu : String) :
    ∀ (cs : List Node) (data : CrawlData),
      (extractHTMLDataChildren std bd bu cs data).HeadingCounts =
        data.HeadingCounts.add (headingTally (Node.nodesOfList cs))
  | [], data => by
    rw [extractHTMLDataChildren, Node.nodesOfList, headingTally_nil, headingAdd_zero]
  | c :: cs, data => by
    rw [extractHTMLDataChildren, extractHTMLDataChildren_HeadingCounts std bd bu cs,
      extractHTMLData_HeadingCounts std bd bu c, headingAdd_assoc, ← headingTally_append]
    rfl
end

/-- C6. From counters that are all zero, `extractHTMLData` leaves in each of
`H1` to `H6` the number of element nodes with that tag among the node and all
its descendants. -/
theorem heading_counts (std : GoStd) (baseDomain baseURL : String) (n : Node)
    (data : CrawlData)
    (hzero : data.HeadingCounts = { H1 := 0, H2 := 0, H3 := 0, H4 := 0, H5 := 0, H6 := 0 }) :
    (extractHTMLData std baseDomain baseURL n data).HeadingCounts =
      { H1 := (n.countTag "h1" : Int)
        H2 := (n.countTag "h2" : Int)
        H3 := (n.countTag "h3" : Int)
        H4 := (n.countTag "h4" : Int)
        H5 := (n.countTag "h5" : Int)
        H6 := (n.countTag "h6" : Int) } := by
  rw [extractHTMLData_HeadingCounts, hzero]
  simp [HeadingCounts.add, headingTally, Node.countTag]

/-- C6 at a document with two `h1` and one `h2`. -/
theorem heading_counts_witness :
    emptyCrawlData.HeadingCounts = { H1 := 0, H2 := 0, H3 := 0, H4 := 0, H5 := 0, H6 := 0 } ∧
    (extractHTMLData goStd "example.com" "https://example.com" headingsDoc
        emptyCrawlData).HeadingCounts =
      { H1 := 2, H2 := 1, H3 := 0, H4 := 0, H5 := 0, H6 := 0 } := by
  refine ⟨rfl, ?_⟩
  rw [heading_counts goStd "example.com" "https://example.com" headingsDoc emptyCrawlData rfl]
  decide

/-! ## The link classifier -/

/-- On its way to a result `crawlURL` parses the address of the page, and the
one call of `extractHTMLData` it makes has that address, which `url.Parse` has
accepted, as `baseURL` and its host as `baseDomain`. -/
theorem crawlURL_ok_parsed (env : CrawlEnv) (targetURL : String) (crawlData : CrawlData)
    (h : crawlURL env targetURL = .ok crawlData) :
    ∃ resp doc parsedURL,
      env.client.Get targetURL = .ok resp ∧ env.htmlParse resp.Body = .ok doc ∧
      env.std.urlParse targetURL = .ok parsedURL ∧
      crawlData =
        (checkBrokenLinks env.client
          (extractHTMLData env.std parsedURL.Host targetURL doc emptyCrawlData)).1 := by
  unfold crawlURL at h
  cases hg : env.client.Get targetURL with
  | error e => simp [hg] at h
  | ok resp =>
    simp only [hg] at h
    split_ifs at h with hcode
    cases hp : env.htmlParse resp.Body with
    | error e => simp [hp] at h
    | ok doc =>
      simp only [hp] at h
      cases hu : env.std.urlParse targetURL with
      | error e => simp [hu] at h
      | ok parsedURL =>
        simp only [hu, Except.ok.injEq] at h
        exact ⟨resp, doc, parsedURL, rfl, hp, rfl, h.symm⟩

/-- The guard of `categorizeLink` on a `baseURL` that `url.Parse` rejects: a
relative `href` is dropped there. -/
theorem categorizeLink_base_rejected (std : GoStd) (href baseDomain baseURL : String)
    (data : CrawlData) (linkURL : URL) (e : String) (hp : std.urlParse href = .ok linkURL)
    (habs : linkURL.IsAbs = false) (hb : std.urlParse baseURL = .error e) :
    categorizeLink std href baseDomain baseURL data = data := by
  simp [categorizeLink, hp, habs, hb]

/-- A second `#` in a relative `href` comes out of `URL.String` escaped. -/
theorem categorizeLink_escapes_fragment :
    (categorizeLink goStd "/a#b#c" "example.com" "https://example.com"
        emptyCrawlData).InternalLinks = ["https://example.com/a#b%23c"] := by
  decide

/-- C7. Let `baseURL` be one that `url.Parse` accepts, as is the address of the
page when `crawlURL` has the document analysed. For an `href` that `url.Parse`
accepts, `categorizeLink` changes nothing but one list, to which it appends one
entry: an absolute `href` goes to `InternalLinks` as it is when its host equals
`baseDomain`, and to `ExternalLinks` as it is otherwise; an `href` that is not
absolute goes to `InternalLinks` as the text of its resolution against
`baseURL`. An `href` that `url.Parse` rejects changes nothing. -/
theorem link_classification (std : GoStd) (href baseDomain baseURL : String)
    (baseURLParsed : URL) (data : CrawlData)
    (hbase : std.urlParse baseURL = .ok baseURLParsed) :
    (∀ linkURL, std.urlParse href = .ok linkURL →
      (linkURL.IsAbs = true → linkURL.Host = baseDomain →
        categorizeLink std href baseDomain baseURL data =
          { data with InternalLinks := data.InternalLinks ++ [href] }) ∧
      (linkURL.IsAbs = true → linkURL.Host ≠ baseDomain →
        categorizeLink std href baseDomain baseURL data =
          { data with ExternalLinks := data.ExternalLinks ++ [href] }) ∧
      (linkURL.IsAbs = false →
        categorizeLink std href baseDomain baseURL data =
          { data with
            InternalLinks := data.InternalLinks ++
              [std.urlString (std.ResolveReference baseURLParsed linkURL)] })) ∧
    (∀ e, std.urlParse href = .error e →
      categorizeLink std href baseDomain baseURL data = data) := by
  refine ⟨fun linkURL hp => ⟨?_, ?_, ?_⟩, ?_⟩
  · intro habs hhost
    simp [categorizeLink, hp, habs, hhost]
  · intro habs hhost
    simp [categorizeLink, hp, habs, hhost]
  · intro habs
    simp [categorizeLink, hp, habs, hbase]
  · intro e he
    simp [categorizeLink, he]

/-- C7 at the page `https://example.com` with the links `/about` and
`https://other.com/x`. -/
theorem link_classification_witness :
    goStd.urlParse "https://example.com" =
        .ok { Scheme := "https", Opaque := "", Host := "example.com", Path := "",
              OmitHost := false, ForceQuery := false, RawQuery := "", Fragment := "" } ∧
      categorizeLink goStd "https://other.com/x" "example.com" "https://example.com"
          (categorizeLink goStd "/about" "example.com" "https://example.com" emptyCrawlData) =
        { emptyCrawlData with
          InternalLinks := ["https://example.com/about"]
          ExternalLinks := ["https://other.com/x"] } := by
  refine ⟨by decide, ?_⟩
  have h1 := ((link_classification goStd "/about" "example.com" "https://example.com"
    { Scheme := "https", Opaque := "", Host := "example.com", Path := "", OmitHost := false,
      ForceQuery := false, RawQuery := "", Fragment := "" }
    emptyCrawlData (by decide)).1 _ (by decide : goStd.urlParse "/about" = .ok
      { Scheme := "", Opaque := "", Host := "", Path := "/about", OmitHost := false,
        ForceQuery := false, RawQuery := "", Fragment := "" })).2.2 (by decide)
  rw [h1]
  have h2 := ((link_classification goStd "https://other.com/x" "example.com"
    "https://example.com"
    { Scheme := "https", Opaque := "", Host := "example.com", Path := "", OmitHost := false,
      ForceQuery := false, RawQuery := "", Fragment := "" }
    { emptyCrawlData with
      InternalLinks := emptyCrawlData.InternalLinks ++
        [goStd.urlString (goStd.ResolveReference
          { Scheme := "https", Opaque := "", Host := "example.com", Path := "", OmitHost := false,
            ForceQuery := false, RawQuery := "", Fragment := "" }
          { Scheme := "", Opaque := "", Host := "", Path := "/about", OmitHost := false,
            ForceQuery := false, RawQuery := "", Fragment := "" })] } (by decide)).1 _
    (by decide : goStd.urlParse "https://other.com/x" = .ok
      { Scheme := "https", Opaque := "", Host := "other.com", Path := "/x", OmitHost := false,
        ForceQuery := false, RawQuery := "", Fragment := "" })).2.1 (by decide) (by decide)
  rw [h2]
  decide

/-! ## The login-form heuristic -/

theorem lastAttr_append_singleton (key : String) (l : List Attribute) (a : Attribute) :
    lastAttr key (l ++ [a]) = if a.Key = key then some a.Val else lastAttr key l := by
  unfold lastAttr
  by_cases h : a.Key = key
  · simp [List.filter_append, List.filter_cons, h]
  · simp [List.filter_append, List.filter_cons, h]

theorem readInputAttrs_eq (std : GoStd) (attrs : List Attribute) :
    readInputAttrs std attrs =
      { inputType := (lastAttr "type" attrs).getD ""
        inputName := ((lastAttr "name" attrs).map std.ToLower).getD ""
        inputId := ((lastAttr "id" attrs).map std.ToLower).getD "" } := by
  induction attrs using List.reverseRecOn with
  | nil => rfl
  | append_singleton l a ih =>
    unfold readInputAttrs at ih ⊢
    rw [List.foldl_append, ih]
    simp only [List.foldl_cons, List.foldl_nil, lastAttr_append_singleton]
    by_cases h1 : a.Key = "type"
    · simp [h1]
    · by_cases h2 : a.Key = "name"
      · simp [h2]
      · by_cases h3 : a.Key = "id"
        · simp [h3]
        · simp [h1, h2, h3]

theorem not_usernameLike_empty :
    (Contains "" "user" || Contains "" "email" || Contains "" "login") = false := by
  decide

theorem applyInputAttrs_eq (std : GoStd) (ty nm iv : Option String) (flags : LoginFlags) :
    applyInputAttrs
        { inputType := ty.getD ""
          inputName := (nm.map std.ToLower).getD ""
          inputId := (iv.map std.ToLower).getD "" } flags =
      { hasPassword := flags.hasPassword || decide (ty = some "password")
        hasUsername := flags.hasUsername ||
          ((decide (ty = some "text") || decide (ty = some "email")) &&
            ((match nm with
              | some v => usernameLike std v
              | none => false) ||
             (match iv with
              | some v => usernameLike std v
              | none => false))) } := by
  obtain ⟨hp, hu⟩ := flags
  have he := not_usernameLike_empty
  simp only [Bool.or_eq_false_iff] at he
  obtain ⟨⟨he1, he2⟩, he3⟩ := he
  unfold applyInputAttrs
  cases ty with
  | none => simp
  | some ty =>
    cases nm with
    | none =>
      cases iv with
      | none =>
        by_cases h1 : ty = "password" <;> by_cases h2 : ty = "text" <;>
          by_cases h3 : ty = "email" <;> simp [h1, h2, h3, he1, he2, he3]
      | some iv =>
        by_cases h1 : ty = "password" <;> by_cases h2 : ty = "text" <;>
          by_cases h3 : ty = "email" <;>
          simp [h1, h2, h3, he1, he2, he3, usernameLike] <;>
          split_ifs <;> simp_all
    | some nv =>
      cases iv with
      | none =>
        by_cases h1 : ty = "password" <;> by_cases h2 : ty = "text" <;>
          by_cases h3 : ty = "email" <;>
          simp [h1, h2, h3, he1, he2, he3, usernameLike] <;>
          split_ifs <;> simp_all
      | some iv =>
        by_cases h1 : ty = "password" <;> by_cases h2 : ty = "text" <;>
          by_cases h3 : ty = "email" <;>
          simp [h1, h2, h3, he1, he2, he3, usernameLike] <;>
          split_ifs <;> simp_all <;> tauto

theorem checkLoginFormNode_eq (std : GoStd) (m : Node) (flags : LoginFlags) :
    checkLoginFormNode std m.Typ m.Data m.Attr flags =
      { hasPassword := flags.hasPassword || m.isPasswordInput
        hasUsername := flags.hasUsername || m.isUsernameInput std } := by
  unfold checkLoginFormNode
  by_cases hin : m.Typ = NodeType.ElementNode ∧ m.Data = "input"
  · have hi : m.isInput = true := by simp [Node.isInput, hin.1, hin.2]
    rw [if_pos hin, readInputAttrs_eq, applyInputAttrs_eq]
    simp only [Node.isPasswordInput, Node.isUsernameInput, Node.attr, hi, Bool.true_and]
  · have hi : m.isInput = false := by
      simp only [Node.isInput, Bool.and_eq_false_iff, decide_eq_false_iff_not]
      by_cases ht : m.Typ = NodeType.ElementNode
      · exact Or.inr (fun hd => hin ⟨ht, hd⟩)
      · exact Or.inl ht
    rw [if_neg hin]
    simp [Node.isPasswordInput, Node.isUsernameInput, hi]

mutual
theorem checkLoginFormFields_eq (std : GoStd) :
    ∀ (n : Node) (flags : LoginFlags),
      checkLoginFormFields std n flags =
        { hasPassword := flags.hasPassword || n.nodes.any Node.isPasswordInput
          hasUsername := flags.hasUsername || n.nodes.any (Node.isUsernameInput std) }
  | .mk t d ns a cs, flags => by
    rw [checkLoginFormFields, checkLoginFormFieldsChildren_eq std cs]
    have h := checkLoginFormNode_eq std (.mk t d ns a cs) flags
    simp only [Node.Typ, Node.Data, Node.Attr] at h
    rw [h]
    simp [Node.nodes, Bool.or_assoc]
theorem checkLoginFormFieldsChildren_eq (std : GoStd) :
    ∀ (cs : List Node) (flags : LoginFlags),
      checkLoginFormFieldsChildren std cs flags =
        { hasPassword := flags.hasPassword || (Node.nodesOfList cs).any Node.isPasswordInput
          hasUsername :=
            flags.hasUsername || (Node.nodesOfList cs).any (Node.isUsernameInput std) }
  | [], flags => by
    simp [checkLoginFormFieldsChildren, Node.nodesOfList]
  | c :: cs, flags => by
    rw [checkLoginFormFieldsChildren, checkLoginFormFieldsChildren_eq std cs,
      checkLoginFormFields_eq std c]
    simp [Node.nodesOfList, Bool.or_assoc]
end

theorem isLoginForm_eq (std : GoStd) (n : Node) :
    isLoginForm std n =
      (n.nodes.any Node.isPasswordInput && n.nodes.any (Node.isUsernameInput std)) := by
  simp [isLoginForm, checkLoginFormFields_eq]

theorem nodes_eq_cons (n : Node) : n.nodes = n :: n.descendants := by
  cases n
  rfl

theorem lastAttr_eq_some_iff (key v : String) (attrs : List Attribute)
    (hnd : (attrs.map Attribute.Key).Nodup) :
    lastAttr key attrs = some v ↔ ∃ a ∈ attrs, a.Key = key ∧ a.Val = v := by
  induction attrs using List.reverseRecOn with
  | nil => simp [lastAttr]
  | append_singleton l a ih =>
    rw [List.map_append, List.nodup_append] at hnd
    obtain ⟨hl, _, hdis⟩ := hnd
    rw [lastAttr_append_singleton]
    by_cases hk : a.Key = key
    · rw [if_pos hk]
      constructor
      · intro h
        exact ⟨a, by simp, hk, by simpa using h⟩
      · rintro ⟨b, hb, hbk, hbv⟩
        rw [List.mem_append, List.mem_singleton] at hb
        rcases hb with hb | hb
        · exfalso
          exact hdis (List.mem_map_of_mem Attribute.Key hb) (by simp [hbk, hk])
        · subst hb
          simp [hbv]
    · rw [if_neg hk, ih hl]
      constructor
      · rintro ⟨b, hb, hbk, hbv⟩
        exact ⟨b, List.mem_append_left _ hb, hbk, hbv⟩
      · rintro ⟨b, hb, hbk, hbv⟩
        rw [List.mem_append, List.mem_singleton] at hb
        rcases hb with hb | hb
        · exact ⟨b, hb, hbk, hbv⟩
        · subst hb
          exact absurd hbk hk

theorem isPasswordInput_of_distinctKeys (m : Node) (h : m.distinctKeys) :
    m.isPasswordInput = m.hasPasswordType := by
  have hiff := lastAttr_eq_some_iff "type" "password" m.Attr h
  rw [Bool.eq_iff_iff]
  simp only [Node.isPasswordInput, Node.hasPasswordType, Node.attr, Node.hasAttr,
    Bool.and_eq_true, decide_eq_true_eq, List.any_eq_true, hiff]

theorem usernameLike_attr_iff (std : GoStd) (key : String) (attrs : List Attribute)
    (hnd : (attrs.map Attribute.Key).Nodup) :
    (match lastAttr key attrs with
      | some v => usernameLike std v
      | none => false) = true ↔
      ∃ a ∈ attrs, a.Key = key ∧ usernameLike std a.Val = true := by
  cases hl : lastAttr key attrs with
  | none =>
    simp only [Bool.false_eq_true, false_iff]
    rintro ⟨a, ha, hk, _⟩
    have := (lastAttr_eq_some_iff key a.Val attrs hnd).mpr ⟨a, ha, hk, rfl⟩
    rw [hl] at this
    exact Option.noConfusion this
  | some v =>
    obtain ⟨a, ha, hk, hv⟩ := (lastAttr_eq_some_iff key v attrs hnd).mp hl
    constructor
    · intro h
      exact ⟨a, ha, hk, by rw [hv]; exact h⟩
    · rintro ⟨b, hb, hbk, hbu⟩
      have := (lastAttr_eq_some_iff key b.Val attrs hnd).mpr ⟨b, hb, hbk, rfl⟩
      rw [hl, Option.some.injEq] at this
      simpa [this] using hbu

theorem isUsernameInput_of_distinctKeys (std : GoStd) (m : Node) (h : m.distinctKeys) :
    m.isUsernameInput std = m.hasUsernameField std := by
  have ht := lastAttr_eq_some_iff "type" "text" m.Attr h
  have he := lastAttr_eq_some_iff "type" "email" m.Attr h
  have hn := usernameLike_attr_iff std "name" m.Attr h
  have hi := usernameLike_attr_iff std "id" m.Attr h
  rw [Bool.eq_iff_iff]
  simp only [Node.isUsernameInput, Node.hasUsernameField, Node.attr, Node.hasAttr,
    Bool.and_eq_true, Bool.or_eq_true, decide_eq_true_eq, List.any_eq_true, ht, he, hn, hi]
  constructor
  · rintro ⟨hin, hu⟩
    refine ⟨hin, ?_⟩
    rcases hu with ⟨a, ha, hk, hv⟩ | ⟨a, ha, hk, hv⟩
    · exact ⟨a, ha, Or.inl hk, hv⟩
    · exact ⟨a, ha, Or.inr hk, hv⟩
  · rintro ⟨hin, a, ha, hk, hv⟩
    refine ⟨hin, ?_⟩
    rcases hk with hk | hk
    · exact Or.inl ⟨a, ha, hk, hv⟩
    · exact Or.inr ⟨a, ha, hk, hv⟩

/-- C8. For a form node, `isLoginForm` is true exactly if among the
descendants of the form, at any depth, there is an `input` whose type is
"password" and there is an `input` whose type is "text" or "email" and whose
name or id contains, in lower case, "user", "email" or "login". The type, name
and id of an input are the values of its attributes with these keys, the last
one where a key is repeated; when no descendant repeats a key, this is the same
as having an attribute with that key and value. -/
theorem login_form_heuristic (std : GoStd) (n : Node) (hform : n.Data = "form") :
    (isLoginForm std n = true ↔
      (∃ m ∈ n.descendants, m.isPasswordInput = true) ∧
      (∃ m ∈ n.descendants, m.isUsernameInput std = true)) ∧
    ((∀ m ∈ n.descendants, m.distinctKeys) →
      (isLoginForm std n = true ↔
        (∃ m ∈ n.descendants, m.hasPasswordType = true) ∧
        (∃ m ∈ n.descendants, m.hasUsernameField std = true))) := by
  have hni : n.isInput = false := by simp [Node.isInput, hform]
  have hnp : n.isPasswordInput = false := by simp [Node.isPasswordInput, hni]
  have hnu : n.isUsernameInput std = false := by simp [Node.isUsernameInput, hni]
  have h1 : isLoginForm std n = true ↔
      (∃ m ∈ n.descendants, m.isPasswordInput = true) ∧
      (∃ m ∈ n.descendants, m.isUsernameInput std = true) := by
    rw [isLoginForm_eq, nodes_eq_cons]
    simp only [List.any_cons, hnp, hnu, Bool.false_or, Bool.and_eq_true, List.any_eq_true]
  refine ⟨h1, fun hd => ?_⟩
  rw [h1]
  constructor
  · rintro ⟨⟨m, hm, hp⟩, ⟨k, hk, hu⟩⟩
    exact ⟨⟨m, hm, by rw [← isPasswordInput_of_distinctKeys m (hd m hm)]; exact hp⟩,
      ⟨k, hk, by rw [← isUsernameInput_of_distinctKeys std k (hd k hk)]; exact hu⟩⟩
  · rintro ⟨⟨m, hm, hp⟩, ⟨k, hk, hu⟩⟩
    exact ⟨⟨m, hm, by rw [isPasswordInput_of_distinctKeys m (hd m hm)]; exact hp⟩,
      ⟨k, hk, by rw [isUsernameInput_of_distinctKeys std k (hd k hk)]; exact hu⟩⟩

/-- C8 at three forms: a password input with a text input named `username`
nested in a `div`, a password input alone, and a username-like input alone. -/
theorem login_form_heuristic_witness :
    isLoginForm goStd loginFormNode = true ∧
    isLoginForm goStd passwordOnlyFormNode = false ∧
    isLoginForm goStd usernameOnlyFormNode = false := by
  refine ⟨?_, ?_, ?_⟩
  · exact (login_form_heuristic goStd loginFormNode rfl).1.mpr
      ⟨List.any_eq_true.mp (by decide), List.any_eq_true.mp (by decide)⟩
  · rw [Bool.eq_false_iff]
    intro h
    have h2 := List.any_eq_true.mpr ((login_form_heuristic goStd passwordOnlyFormNode rfl).1.mp h).2
    revert h2
    decide
  · rw [Bool.eq_false_iff]
    intro h
    have h2 := List.any_eq_true.mpr ((login_form_heuristic goStd usernameOnlyFormNode rfl).1.mp h).1
    revert h2
    decide

/-! ## The login-form flag of a document -/

theorem categorizeLink_HasLoginForm (std : GoStd) (href bd bu : String) (data : CrawlData) :
    (categorizeLink std href bd bu data).HasLoginForm = data.HasLoginForm := by
  unfold categorizeLink
  split
  · rfl
  · split_ifs
    · rfl
    · rfl
    · split <;> rfl

theorem visitHTML_HasLoginForm (attrs : List Attribute) (data : CrawlData) :
    (visitHTML attrs data).HasLoginForm = data.HasLoginForm := by
  unfold visitHTML
  have h := foldl_preserves
    (fun (d : CrawlData) (attr : Attribute) =>
      if attr.Key = "version" then { d with HTMLVersion := "HTML " ++ attr.Val } else d)
    CrawlData.HasLoginForm (by intro b a; beta_reduce; split_ifs <;> rfl) attrs data
  simp only
  split_ifs
  · exact h
  · exact h

theorem visitTitle_HasLoginForm (children : List Node) (data : CrawlData) :
    (visitTitle children data).HasLoginForm = data.HasLoginForm := by
  cases children <;> rfl

theorem visitAnchor_HasLoginForm (std : GoStd) (bd bu : String) (attrs : List Attribute)
    (data : CrawlData) :
    (visitAnchor std bd bu attrs data).HasLoginForm = data.HasLoginForm := by
  unfold visitAnchor
  apply foldl_preserves
  intro b a
  beta_reduce
  split_ifs
  · exact categorizeLink_HasLoginForm std _ bd bu b
  · rfl

theorem visitInput_HasLoginForm (attrs : List Attribute) :
    ∀ data : CrawlData, (visitInput attrs data).HasLoginForm =
      (data.HasLoginForm ||
        attrs.any (fun a => decide (a.Key = "type") && decide (a.Val = "password"))) := by
  unfold visitInput
  induction attrs with
  | nil => intro data; simp
  | cons a rest ih =>
    intro data
    rw [List.foldl_cons, ih]
    by_cases h : a.Key = "type" ∧ a.Val = "password"
    · simp [h.1, h.2]
    · rw [if_neg h]
      have : (decide (a.Key = "type") && decide (a.Val = "password")) = false := by
        simpa using h
      simp [this]

theorem visitNode_HasLoginForm (std : GoStd) (bd bu : String) (n : Node) (data : CrawlData) :
    (visitNode std bd bu n data).HasLoginForm = (data.HasLoginForm || n.signalsLogin std) := by
  unfold visitNode Node.signalsLogin Node.hasPasswordType Node.hasAttr Node.isInput Node.isTag
  by_cases ht : n.Typ = NodeType.ElementNode
  · rw [if_pos ht]
    by_cases hf : n.Data = "form"
    · cases hl : isLoginForm std n <;> simp [hf, ht, hl]
    · by_cases hi : n.Data = "input"
      · simp [hi, ht, visitInput_HasLoginForm]
      · simp only [hf, hi, ht, if_false, decide_False, decide_True, Bool.and_false,
          Bool.false_and, Bool.or_false, Bool.true_and]
        split_ifs
        · exact visitHTML_HasLoginForm _ _
        · exact visitTitle_HasLoginForm _ _
        · rfl
        · rfl
        · rfl
        · rfl
        · rfl
        · rfl
        · exact visitAnchor_HasLoginForm _ _ _ _ _
        · rfl
  · rw [if_neg ht]
    simp [ht]

mutual
theorem extractHTMLData_HasLoginForm (std : GoStd) (bd bu : String) :
    ∀ (n : Node) (data : CrawlData),
      (extractHTMLData std bd bu n data).HasLoginForm =
        (data.HasLoginForm || n.nodes.any (Node.signalsLogin std))
  | .mk t d ns a cs, data => by
    rw [extractHTMLData, extractHTMLDataChildren_HasLoginForm std bd bu cs,
      visitNode_HasLoginForm]
    simp [Node.nodes, Bool.or_assoc]
theorem extractHTMLDataChildren_HasLoginForm (std : GoStd) (bd bu : String) :
    ∀ (cs : List Node) (data : CrawlData),
      (extractHTMLDataChildren std bd bu cs data).HasLoginForm =
        (data.HasLoginForm || (Node.nodesOfList cs).any (Node.signalsLogin std))
  | [], data => by
    simp [extractHTMLDataChildren, Node.nodesOfList]
  | c :: cs, data => by
    rw [extractHTMLDataChildren, extractHTMLDataChildren_HasLoginForm std bd bu cs,
      extractHTMLData_HasLoginForm std bd bu c]
    simp [Node.nodesOfList, Bool.or_assoc]
end

/-- C9, as the code has it. Whenever the tree contains an `input` with an
attribute `type="password"`, `extractHTMLData` yields `HasLoginForm = true`:
so it does for a document whose form has a password input and a text input
named `username`, and so it does for a document whose form has the password
input alone. -/
theorem password_input_sets_login_form (std : GoStd) (baseDomain baseURL : String)
    (n : Node) (data : CrawlData) (hpw : ∃ m ∈ n.nodes, m.hasPasswordType = true) :
    (extractHTMLData std baseDomain baseURL n data).HasLoginForm = true := by
  obtain ⟨m, hm, hp⟩ := hpw
  rw [extractHTMLData_HasLoginForm, Bool.or_eq_true]
  right
  rw [List.any_eq_true]
  exact ⟨m, hm, by simp [Node.signalsLogin, hp]⟩

/-- C9 at a page whose form has a password input and a text input named
`username`. -/
theorem password_input_sets_login_form_witness :
    isLoginForm goStd loginFormNode = true ∧
    (extractHTMLData goStd "example.com" "https://example.com" loginDoc
      emptyCrawlData).HasLoginForm = true :=
  ⟨by decide,
    password_input_sets_login_form goStd "example.com" "https://example.com" loginDoc
      emptyCrawlData (List.any_eq_true.mp (by decide))⟩

/-- C9 as stated fails: on a page whose form holds a password input and nothing
else, `isLoginForm` rejects the form, and `extractHTMLData` still yields
`HasLoginForm = true`. -/
theorem password_only_form_counterexample :
    isLoginForm goStd passwordOnlyFormNode = false ∧
    (extractHTMLData goStd "example.com" "https://example.com" passwordOnlyDoc
      emptyCrawlData).HasLoginForm = true := by
  decide

/-! ## The broken-link checker -/

theorem checkLink_eq (client : Client) (st : CrawlData × List String) (link : String) :
    checkLink client st link =
      ({ st.1 with
          BrokenLinks := st.1.BrokenLinks ++
            ([link].filter (probeBroken client)).map (fun l =>
              { CrawlResultID := "", URL := l, StatusCode := probeStatus client l,
                Text := "Link text" }) },
        st.2 ++ expectedProbes client [link]) := by
  cases h : client.Head link with
  | error e =>
    have hb : probeBroken client link = true := by simp [probeBroken, h]
    have hs : probeStatus client link = 0 := by simp [probeStatus, h]
    simp [checkLink, isLinkBroken, h, expectedProbes, hb, hs, List.filter_cons]
  | ok resp =>
    have hs : probeStatus client link = resp.StatusCode := by simp [probeStatus, h]
    by_cases hc : resp.StatusCode ≥ 400
    · have hb : probeBroken client link = true := by simp [probeBroken, h, hc]
      simp [checkLink, isLinkBroken, h, expectedProbes, hb, hs, hc, List.filter_cons]
    · have hb : probeBroken client link = false := by simp [probeBroken, h, hc]
      simp [checkLink, isLinkBroken, h, expectedProbes, hb, hc, List.filter_cons]

theorem expectedProbes_append (client : Client) (l1 l2 : List String) :
    expectedProbes client (l1 ++ l2) = expectedProbes client l1 ++ expectedProbes client l2 := by
  induction l1 with
  | nil => rfl
  | cons a rest ih => simp [expectedProbes, ih]

theorem foldl_checkLink (client : Client) (links : List String) :
    ∀ st : CrawlData × List String,
      links.foldl (checkLink client) st =
        ({ st.1 with
            BrokenLinks := st.1.BrokenLinks ++
              (links.filter (probeBroken client)).map (fun l =>
                { CrawlResultID := "", URL := l, StatusCode := probeStatus client l,
                  Text := "Link text" }) },
          st.2 ++ expectedProbes client links) := by
  induction links with
  | nil => intro st; simp [expectedProbes]
  | cons link rest ih =>
    intro st
    rw [List.foldl_cons, ih, checkLink_eq]
    have h : link :: rest = [link] ++ rest := rfl
    rw [h, expectedProbes_append, List.filter_append, List.map_append]
    simp [List.append_assoc]

theorem mem_expectedProbes (client : Client) (links : List String) (l : String) :
    l ∈ expectedProbes client links ↔ l ∈ links := by
  induction links with
  | nil => simp [expectedProbes]
  | cons a rest ih =>
    unfold expectedProbes
    split_ifs <;> simp [ih]

/-- C10. `checkBrokenLinks` sends HEAD requests to the first ten entries of the
internal links followed by the external links (to all of them when there are
fewer), in that order, once to a live one and twice in a row to a broken one,
and to nothing else; to the broken links recorded before (none, when `crawlURL`
calls it) it appends, in that order, one record for each of these candidates
whose request fails or answers with a status of 400 or more, with status 0 in
the first case and the status of the answer in the second, and the text
"Link text"; it changes nothing else in the data. -/
theorem broken_link_sampling (client : Client) (data : CrawlData) :
    (sampleCandidates data).length =
      min 10 (data.InternalLinks ++ data.ExternalLinks).length ∧
    (checkBrokenLinks client data).2 = expectedProbes client (sampleCandidates data) ∧
    (∀ link, link ∈ (checkBrokenLinks client data).2 ↔ link ∈ sampleCandidates data) ∧
    (checkBrokenLinks client data).1 =
      { data with
        BrokenLinks := data.BrokenLinks ++
          ((sampleCandidates data).filter (probeBroken client)).map (fun link =>
            { CrawlResultID := "", URL := link, StatusCode := probeStatus client link,
              Text := "Link text" }) } := by
  have hcand : (if (data.InternalLinks ++ data.ExternalLinks).length > 10 then
      (data.InternalLinks ++ data.ExternalLinks).take 10
      else data.InternalLinks ++ data.ExternalLinks) = sampleCandidates data := by
    unfold sampleCandidates
    split_ifs with h
    · rfl
    · exact (List.take_of_length_le (by omega)).symm
  have hrun : checkBrokenLinks client data =
      ({ data with
          BrokenLinks := data.BrokenLinks ++
            ((sampleCandidates data).filter (probeBroken client)).map (fun link =>
              { CrawlResultID := "", URL := link, StatusCode := probeStatus client link,
                Text := "Link text" }) },
        [] ++ expectedProbes client (sampleCandidates data)) := by
    unfold checkBrokenLinks
    simp only
    rw [hcand, foldl_checkLink]
  refine ⟨?_, ?_, ?_, ?_⟩
  · simp [sampleCandidates, List.length_take]
  · rw [hrun]; simp
  · intro link
    rw [hrun]
    simpa using mem_expectedProbes client (sampleCandidates data) link
  · rw [hrun]

/-- C10 at 100 discovered links: the requests go to the first ten internal
links, the three broken ones among them are asked twice, and no other link is
touched. -/
theorem broken_link_sampling_witness :
    hundredLinks.BrokenLinks = [] ∧
    (hundredLinks.InternalLinks ++ hundredLinks.ExternalLinks).length = 100 ∧
    (checkBrokenLinks sampleClient hundredLinks).2 =
      ["https://example.com/p0", "https://example.com/p1", "https://example.com/p2",
        "https://example.com/p3", "https://example.com/p3", "https://example.com/p4",
        "https://example.com/p5", "https://example.com/p5", "https://example.com/p6",
        "https://example.com/p7", "https://example.com/p7", "https://example.com/p8",
        "https://example.com/p9"] ∧
    (checkBrokenLinks sampleClient hundredLinks).1.BrokenLinks =
      [{ CrawlResultID := "", URL := "https://example.com/p3", StatusCode := 0,
         Text := "Link text" },
       { CrawlResultID := "", URL := "https://example.com/p5", StatusCode := 404,
         Text := "Link text" },
       { CrawlResultID := "", URL := "https://example.com/p7", StatusCode := 500,
         Text := "Link text" }] := by
  have h := broken_link_sampling sampleClient hundredLinks
  refine ⟨rfl, by decide, ?_, ?_⟩
  · rw [h.2.1]
    decide
  · rw [h.2.2.2]
    decide

/-! ## Stopping a crawl -/

/-- C12, as the code has it. `StopCrawl` on a job that is not in the registry
leaves the membership of every job as it was (and the registry itself, when it
has no entry for the job); it still issues the update that sets the stored
status of the job to "queued", and it returns the error of that update: no
error when the database accepts the update, the error of the database
otherwise. -/
theorem cancel_not_admitted (cs : CrawlerService) (jobID : String) (fault : Option String)
    (hnot : IsCrawlActive cs jobID = false) :
    (∀ k, IsCrawlActive (StopCrawl cs jobID fault).2 k = IsCrawlActive cs k) ∧
    (jobID ∉ cs.activeCrawls.keys →
      (StopCrawl cs jobID fault).2.activeCrawls = cs.activeCrawls) ∧
    (StopCrawl cs jobID fault).1 = fault ∧
    (StopCrawl cs jobID fault).2.db = (dbUpdateStatus cs.db jobID StatusQueued fault).2 := by
  refine ⟨?_, ?_, ?_, rfl⟩
  · intro k
    simp only [IsCrawlActive, StopCrawl]
    by_cases hk : k = jobID
    · subst hk
      rw [GoMap.get_delete_self]
      exact hnot.symm
    · exact GoMap.get_delete_ne _ _ _ hk
  · intro hkey
    simp only [StopCrawl]
    exact GoMap.delete_of_not_mem_keys _ _ hkey
  · cases fault <;> rfl

/-- C12 at a registry that holds the job `a`, for the job `b`, with a database
that accepts the update. -/
theorem cancel_not_admitted_witness :
    IsCrawlActive (StartCrawl (NewCrawlerService [sampleJob] []) "a").cs "b" = false ∧
    (StopCrawl (StartCrawl (NewCrawlerService [sampleJob] []) "a").cs "b" none).2.activeCrawls =
      [("a", true)] ∧
    (StopCrawl (StartCrawl (NewCrawlerService [sampleJob] []) "a").cs "b" none).1 = none := by
  have h := cancel_not_admitted (StartCrawl (NewCrawlerService [sampleJob] []) "a").cs "b" none
    (by decide)
  refine ⟨by decide, ?_, h.2.2.1⟩
  rw [h.2.1 (by decide)]
  decide

/-- C12 as stated fails: for a job that is not in the registry, `StopCrawl`
returns an error when the database rejects the update. -/
theorem cancel_not_admitted_counterexample :
    IsCrawlActive (NewCrawlerService [sampleJob] []) "ghost" = false ∧
    (StopCrawl (NewCrawlerService [sampleJob] []) "ghost" (some "sql: database is closed")).1 =
      some "sql: database is closed" := by
  decide

/-! ## One task per job -/

/-- A run in which `StopCrawl` comes between the two calls of `db.Save` of the
goroutine: the status of the job goes from "queued" to "running", back to
"queued" and from there to "completed", or to "error" when the fetch times
out. -/
theorem stop_between_saves :
    taskStep headingsEnv "job-1" (NewCrawlerService [sampleJob] []) .load =
        (NewCrawlerService [sampleJob] [], .markRunning sampleJob) ∧
      (taskStep headingsEnv "job-1" (NewCrawlerService [sampleJob] [])
        (.markRunning sampleJob)).2 = .crawl { sampleJob with Status := StatusRunning } ∧
      statusOf (NewCrawlerService [sampleJob] []).db "job-1" = some StatusQueued ∧
      statusOf (taskStep headingsEnv "job-1" (NewCrawlerService [sampleJob] [])
        (.markRunning sampleJob)).1.db "job-1" = some StatusRunning ∧
      statusOf (StopCrawl (taskStep headingsEnv "job-1" (NewCrawlerService [sampleJob] [])
        (.markRunning sampleJob)).1 "job-1" none).2.db "job-1" = some StatusQueued ∧
      statusOf (taskStep headingsEnv "job-1"
        (StopCrawl (taskStep headingsEnv "job-1" (NewCrawlerService [sampleJob] [])
          (.markRunning sampleJob)).1 "job-1" none).2
        (.crawl { sampleJob with Status := StatusRunning })).1.db "job-1" =
          some StatusCompleted ∧
      allowedTransition StatusQueued StatusCompleted = false ∧
      statusOf (taskStep timeoutEnv "job-1"
        (StopCrawl (taskStep timeoutEnv "job-1" (NewCrawlerService [sampleJob] [])
          (.markRunning sampleJob)).1 "job-1" none).2
        (.crawl { sampleJob with Status := StatusRunning })).1.db "job-1" =
          some StatusError ∧
      allowedTransition StatusQueued StatusError = false := by
  decide

/-! ## The title of a document -/

theorem getLast_getD_append {α : Type} (l1 l2 : List α) (d : α) :
    (l1 ++ l2).getLast?.getD d = l2.getLast?.getD (l1.getLast?.getD d) := by
  induction l2 using List.reverseRecOn with
  | nil => simp
  | append_singleton l a _ =>
    rw [← List.append_assoc, List.getLast?_concat, List.getLast?_concat]
    rfl

theorem lastTitle_append (l1 l2 : List Node) (t : String) :
    (lastTitle (l1 ++ l2)).getD t = (lastTitle l2).getD ((lastTitle l1).getD t) := by
  unfold lastTitle
  rw [List.filterMap_append, getLast_getD_append]

theorem lastTitle_singleton (m : Node) (t : String) :
    (lastTitle [m]).getD t = m.titleText.getD t := by
  unfold lastTitle
  cases h : m.titleText <;> simp [List.filterMap_cons, h]

theorem categorizeLink_Title (std : GoStd) (href bd bu : String) (data : CrawlData) :
    (categorizeLink std href bd bu data).Title = data.Title := by
  unfold categorizeLink
  split
  · rfl
  · split_ifs
    · rfl
    · rfl
    · split <;> rfl

theorem visitHTML_Title (attrs : List Attribute) (data : CrawlData) :
    (visitHTML attrs data).Title = data.Title := by
  unfold visitHTML
  have h := foldl_preserves
    (fun (d : CrawlData) (attr : Attribute) =>
      if attr.Key = "version" then { d with HTMLVersion := "HTML " ++ attr.Val } else d)
    CrawlData.Title (by intro b a; beta_reduce; split_ifs <;> rfl) attrs data
  simp only
  split_ifs
  · exact h
  · exact h

theorem visitAnchor_Title (std : GoStd) (bd bu : String) (attrs : List Attribute)
    (data : CrawlData) :
    (visitAnchor std bd bu attrs data).Title = data.Title := by
  unfold visitAnchor
  apply foldl_preserves
  intro b a
  beta_reduce
  split_ifs
  · exact categorizeLink_Title std _ bd bu b
  · rfl

theorem visitInput_Title (attrs : List Attribute) (data : CrawlData) :
    (visitInput attrs data).Title = data.Title := by
  unfold visitInput
  apply foldl_preserves
  intro b a
  beta_reduce
  split_ifs <;> rfl

theorem titleText_of_not_title (n : Node)
    (h : ¬ (n.Typ = NodeType.ElementNode ∧ n.Data = "title")) : n.titleText = none := by
  unfold Node.titleText Node.isTag
  rw [if_neg]
  simpa using h

theorem titleText_of_title (n : Node) (ht : n.Typ = NodeType.ElementNode)
    (hd : n.Data = "title") (data : CrawlData) :
    n.titleText.getD data.Title = (visitTitle n.children data).Title := by
  unfold Node.titleText Node.isTag visitTitle
  rw [if_pos (by simp [ht, hd])]
  cases n.children <;> rfl

theorem visitNode_Title (std : GoStd) (bd bu : String) (n : Node) (data : CrawlData) :
    (visitNode std bd bu n data).Title = n.titleText.getD data.Title := by
  unfold visitNode
  by_cases ht : n.Typ = NodeType.ElementNode
  · rw [if_pos ht]
    by_cases hh : n.Data = "html"
    · rw [if_pos hh, titleText_of_not_title n (by rw [hh]; simp)]
      exact visitHTML_Title _ _
    · rw [if_neg hh]
      by_cases hti : n.Data = "title"
      · rw [if_pos hti, titleText_of_title n ht hti]
      · rw [if_neg hti, titleText_of_not_title n (fun h => hti h.2)]
        split_ifs
        · rfl
        · rfl
        · rfl
        · rfl
        · rfl
        · rfl
        · exact visitAnchor_Title _ _ _ _ _
        · rfl
        · rfl
        · exact visitInput_Title _ _
        · rfl
  · rw [if_neg ht, titleText_of_not_title n (fun h => ht h.1)]
    rfl

mutual
theorem extractHTMLData_Title (std : GoStd) (bd bu : String) :
    ∀ (n : Node) (data : CrawlData),
      (extractHTMLData std bd bu n data).Title = (lastTitle n.nodes).getD data.Title
  | .mk t d ns a cs, data => by
    rw [extractHTMLData, extractHTMLDataChildren_Title std bd bu cs, visitNode_Title,
      ← lastTitle_singleton, ← lastTitle_append]
    rfl
theorem extractHTMLDataChildren_Title (std : GoStd) (bd bu : String) :
    ∀ (cs : List Node) (data : CrawlData),
      (extractHTMLDataChildren std bd bu cs data).Title =
        (lastTitle (Node.nodesOfList cs)).getD data.Title
  | [], data => by
    simp [extractHTMLDataChildren, Node.nodesOfList, lastTitle]
  | c :: cs, data => by
    rw [extractHTMLDataChildren, extractHTMLDataChildren_Title std bd bu cs,
      extractHTMLData_Title std bd bu c, ← lastTitle_append]
    rfl
end

/-- C13, as the code has it. The title `extractHTMLData` leaves is the trimmed
`Data` of the first child of the last `title` element, in document order, that
has a child: every such element replaces the title set before it. When no
`title` element has a child, the title stays what it was. -/
theorem title_extraction (std : GoStd) (baseDomain baseURL : String) (n : Node)
    (data : CrawlData) :
    (extractHTMLData std baseDomain baseURL n data).Title =
      (lastTitle n.nodes).getD data.Title :=
  extractHTMLData_Title std baseDomain baseURL n data

/-- C13 at a page with one title. -/
theorem title_extraction_witness :
    (extractHTMLData goStd "example.com" "https://example.com" headingsDoc emptyCrawlData).Title =
      "Two headings" := by
  rw [title_extraction goStd "example.com" "https://example.com" headingsDoc emptyCrawlData]
  decide

/-- C13 as stated fails: on a page whose head has the title "Example page" and
whose body has an inline SVG with the title "Logo", the first `title` element
gives "Example page" and `extractHTMLData` yields "Logo". -/
theorem title_extraction_counterexample :
    firstTitle svgTitleDoc = some "Example page" ∧
    (extractHTMLData goStd "example.com" "https://example.com" svgTitleDoc emptyCrawlData).Title =
      "Logo" := by
  decide

/-! ## Password inputs decide the login-form flag -/

theorem lastAttr_some_mem (key v : String) (attrs : List Attribute)
    (h : lastAttr key attrs = some v) : ∃ a ∈ attrs, a.Key = key ∧ a.Val = v := by
  unfold lastAttr at h
  cases hl : (attrs.filter (fun a => decide (a.Key = key))).getLast? with
  | none => simp [hl] at h
  | some a =>
    simp only [hl, Option.map_some', Option.some.injEq] at h
    have hmem := List.mem_of_getLast?_eq_some hl
    rw [List.mem_filter] at hmem
    exact ⟨a, hmem.1, by simpa using hmem.2, h⟩

theorem hasPasswordType_of_isPasswordInput (m : Node) (h : m.isPasswordInput = true) :
    m.hasPasswordType = true := by
  simp only [Node.isPasswordInput, Bool.and_eq_true, decide_eq_true_eq, Node.attr] at h
  obtain ⟨a, ha, hk, hv⟩ := lastAttr_some_mem "type" "password" m.Attr h.2
  simp only [Node.hasPasswordType, Node.hasAttr, Bool.and_eq_true, List.any_eq_true,
    decide_eq_true_eq]
  exact ⟨h.1, a, ha, hk, hv⟩

mutual
theorem nodes_trans (m : Node) :
    ∀ n : Node, ∀ f ∈ n.nodes, m ∈ f.nodes → m ∈ n.nodes
  | .mk t d ns a cs, f, hf, hm => by
    rw [Node.nodes, List.mem_cons] at hf
    rcases hf with hf | hf
    · rw [← hf]; exact hm
    · rw [Node.nodes]
      exact List.mem_cons_of_mem _ (nodesOfList_trans m cs f hf hm)
theorem nodesOfList_trans (m : Node) :
    ∀ cs : List Node, ∀ f ∈ Node.nodesOfList cs, m ∈ f.nodes → m ∈ Node.nodesOfList cs
  | [], f, hf, _ => by simp [Node.nodesOfList] at hf
  | c :: cs, f, hf, hm => by
    rw [Node.nodesOfList, List.mem_append] at hf ⊢
    rcases hf with hf | hf
    · exact Or.inl (nodes_trans m c f hf hm)
    · exact Or.inr (nodesOfList_trans m cs f hf hm)
end

theorem password_input_of_isLoginForm (std : GoStd) (f : Node) (h : isLoginForm std f = true) :
    ∃ m ∈ f.nodes, m.hasPasswordType = true := by
  rw [isLoginForm_eq, Bool.and_eq_true, List.any_eq_true] at h
  obtain ⟨m, hm, hp⟩ := h.1
  exact ⟨m, hm, hasPasswordType_of_isPasswordInput m hp⟩

/-- C15. From `HasLoginForm = false`, `extractHTMLData` yields `true` exactly
if the tree contains an `input` element with an attribute `type="password"`;
and whenever `isLoginForm` accepts a `form` element of the tree, the tree
contains such an input, so the forms never change that result. -/
theorem password_input_decides (std : GoStd) (baseDomain baseURL : String) (n : Node)
    (data : CrawlData) (hstart : data.HasLoginForm = false) :
    ((extractHTMLData std baseDomain baseURL n data).HasLoginForm = true ↔
      ∃ m ∈ n.nodes, m.hasPasswordType = true) ∧
    (∀ f ∈ n.nodes, Node.isTag "form" f = true → isLoginForm std f = true →
      ∃ m ∈ n.nodes, m.hasPasswordType = true) := by
  have hform : ∀ f ∈ n.nodes, isLoginForm std f = true →
      ∃ m ∈ n.nodes, m.hasPasswordType = true := by
    intro f hf hl
    obtain ⟨m, hm, hp⟩ := password_input_of_isLoginForm std f hl
    exact ⟨m, nodes_trans m n f hf hm, hp⟩
  refine ⟨?_, fun f hf _ hl => hform f hf hl⟩
  rw [extractHTMLData_HasLoginForm, hstart, Bool.false_or, List.any_eq_true]
  constructor
  · rintro ⟨m, hm, hs⟩
    simp only [Node.signalsLogin, Bool.or_eq_true, Bool.and_eq_true] at hs
    rcases hs with hs | hs
    · exact ⟨m, hm, hs⟩
    · exact hform m hm hs.2
  · rintro ⟨m, hm, hp⟩
    exact ⟨m, hm, by simp [Node.signalsLogin, hp]⟩

/-- C15 at a page whose form has a password input alone, and at a page whose
form has a username-like input alone. -/
theorem password_input_decides_witness :
    (extractHTMLData goStd "example.com" "https://example.com" passwordOnlyDoc
      emptyCrawlData).HasLoginForm = true ∧
    (extractHTMLData goStd "example.com" "https://example.com" usernameOnlyDoc
      emptyCrawlData).HasLoginForm = false := by
  constructor
  · exact (password_input_decides goStd "example.com" "https://example.com" passwordOnlyDoc
      emptyCrawlData rfl).1.mpr (List.any_eq_true.mp (by decide))
  · rw [Bool.eq_false_iff]
    intro h
    have h2 := List.any_eq_true.mpr
      ((password_input_decides goStd "example.com" "https://example.com" usernameOnlyDoc
        emptyCrawlData rfl).1.mp h)
    revert h2
    decide

/-! ## The order of the links -/

theorem categorizeLink_links (std : GoStd) (href bd bu : String) (d1 d2 : CrawlData)
    (h : d1.links = d2.links) :
    (categorizeLink std href bd bu d1).links = (categorizeLink std href bd bu d2).links := by
  simp only [CrawlData.links, Prod.mk.injEq] at h
  unfold categorizeLink
  cases std.urlParse href with
  | error e => simp [CrawlData.links, h.1, h.2]
  | ok u =>
    simp only
    split_ifs
    · simp [CrawlData.links, h.1, h.2]
    · simp [CrawlData.links, h.1, h.2]
    · cases std.urlParse bu with
      | error e => simp [CrawlData.links, h.1, h.2]
      | ok b => simp [CrawlData.links, h.1, h.2]

theorem classifyAll_links (std : GoStd) (bd bu : String) (hrefs : List String) :
    ∀ d1 d2 : CrawlData, d1.links = d2.links →
      (classifyAll std bd bu hrefs d1).links = (classifyAll std bd bu hrefs d2).links := by
  induction hrefs with
  | nil => intro d1 d2 h; exact h
  | cons href rest ih =>
    intro d1 d2 h
    exact ih _ _ (categorizeLink_links std href bd bu d1 d2 h)

theorem classifyAll_append (std : GoStd) (bd bu : String) (l1 l2 : List String)
    (d : CrawlData) :
    classifyAll std bd bu (l1 ++ l2) d = classifyAll std bd bu l2 (classifyAll std bd bu l1 d) := by
  simp [classifyAll, List.foldl_append]

theorem visitAnchor_eq (std : GoStd) (bd bu : String) (attrs : List Attribute) :
    ∀ data : CrawlData, visitAnchor std bd bu attrs data =
      classifyAll std bd bu
        ((attrs.filter (fun a => decide (a.Key = "href") && decide (a.Val ≠ ""))).map
          Attribute.Val) data := by
  induction attrs with
  | nil => intro data; rfl
  | cons a rest ih =>
    intro data
    unfold visitAnchor at ih ⊢
    rw [List.foldl_cons, ih]
    by_cases h : a.Key = "href" ∧ a.Val ≠ ""
    · rw [if_pos h]
      have hf : List.filter (fun a => decide (a.Key = "href") && decide (a.Val ≠ ""))
          (a :: rest) =
          a :: List.filter (fun a => decide (a.Key = "href") && decide (a.Val ≠ "")) rest := by
        simp [List.filter_cons, h.1, h.2]
      rw [hf]
      rfl
    · rw [if_neg h]
      have hf : List.filter (fun a => decide (a.Key = "href") && decide (a.Val ≠ ""))
          (a :: rest) =
          List.filter (fun a => decide (a.Key = "href") && decide (a.Val ≠ "")) rest := by
        rw [List.filter_cons, if_neg]
        simpa using h
      rw [hf]

theorem visitHTML_links (attrs : List Attribute) (data : CrawlData) :
    (visitHTML attrs data).links = data.links := by
  unfold visitHTML
  have h := foldl_preserves
    (fun (d : CrawlData) (attr : Attribute) =>
      if attr.Key = "version" then { d with HTMLVersion := "HTML " ++ attr.Val } else d)
    CrawlData.links (by intro b a; beta_reduce; split_ifs <;> rfl) attrs data
  simp only
  split_ifs
  · exact h
  · exact h

theorem visitTitle_links (children : List Node) (data : CrawlData) :
    (visitTitle children data).links = data.links := by
  cases children <;> rfl

theorem visitInput_links (attrs : List Attribute) (data : CrawlData) :
    (visitInput attrs data).links = data.links := by
  unfold visitInput
  apply foldl_preserves
  intro b a
  beta_reduce
  split_ifs <;> rfl

theorem hrefs_of_not_anchor (n : Node)
    (h : ¬ (n.Typ = NodeType.ElementNode ∧ n.Data = "a")) : n.hrefs = [] := by
  unfold Node.hrefs Node.isTag
  rw [if_neg]
  simpa using h

theorem hrefs_of_anchor (n : Node) (ht : n.Typ = NodeType.ElementNode) (hd : n.Data = "a") :
    n.hrefs =
      (n.Attr.filter (fun a => decide (a.Key = "href") && decide (a.Val ≠ ""))).map
        Attribute.Val := by
  unfold Node.hrefs Node.isTag
  rw [if_pos (by simp [ht, hd])]

theorem visitNode_links (std : GoStd) (bd bu : String) (n : Node) (data : CrawlData) :
    (visitNode std bd bu n data).links = (classifyAll std bd bu n.hrefs data).links := by
  unfold visitNode
  by_cases ht : n.Typ = NodeType.ElementNode
  · rw [if_pos ht]
    by_cases ha : n.Data = "a"
    · rw [hrefs_of_anchor n ht ha, ← visitAnchor_eq]
      have e1 : ¬ n.Data = "html" := by rw [ha]; decide
      have e2 : ¬ n.Data = "title" := by rw [ha]; decide
      have e3 : ¬ n.Data = "h1" := by rw [ha]; decide
      have e4 : ¬ n.Data = "h2" := by rw [ha]; decide
      have e5 : ¬ n.Data = "h3" := by rw [ha]; decide
      have e6 : ¬ n.Data = "h4" := by rw [ha]; decide
      have e7 : ¬ n.Data = "h5" := by rw [ha]; decide
      have e8 : ¬ n.Data = "h6" := by rw [ha]; decide
      rw [if_neg e1, if_neg e2, if_neg e3, if_neg e4, if_neg e5, if_neg e6, if_neg e7, if_neg e8,
        if_pos ha]
    · have hc : classifyAll std bd bu [] data = data := rfl
      rw [hrefs_of_not_anchor n (fun h => ha h.2), hc]
      by_cases hh : n.Data = "html"
      · rw [if_pos hh]; exact visitHTML_links _ _
      rw [if_neg hh]
      by_cases hti : n.Data = "title"
      · rw [if_pos hti]; exact visitTitle_links _ _
      rw [if_neg hti]
      by_cases h1 : n.Data = "h1"
      · rw [if_pos h1]; rfl
      rw [if_neg h1]
      by_cases h2 : n.Data = "h2"
      · rw [if_pos h2]; rfl
      rw [if_neg h2]
      by_cases h3 : n.Data = "h3"
      · rw [if_pos h3]; rfl
      rw [if_neg h3]
      by_cases h4 : n.Data = "h4"
      · rw [if_pos h4]; rfl
      rw [if_neg h4]
      by_cases h5 : n.Data = "h5"
      · rw [if_pos h5]; rfl
      rw [if_neg h5]
      by_cases h6 : n.Data = "h6"
      · rw [if_pos h6]; rfl
      rw [if_neg h6, if_neg ha]
      by_cases hf : n.Data = "form"
      · rw [if_pos hf]
        by_cases hl : isLoginForm std n = true
        · rw [if_pos hl]; rfl
        · rw [if_neg hl]
      rw [if_neg hf]
      by_cases hi : n.Data = "input"
      · rw [if_pos hi]; exact visitInput_links _ _
      rw [if_neg hi]
  · rw [if_neg ht, hrefs_of_not_anchor n (fun h => ht h.1)]
    rfl

mutual
theorem extractHTMLData_links (std : GoStd) (bd bu : String) :
    ∀ (n : Node) (data : CrawlData),
      (extractHTMLData std bd bu n data).links =
        (classifyAll std bd bu (n.nodes.flatMap Node.hrefs) data).links
  | .mk t d ns a cs, data => by
    rw [extractHTMLData, extractHTMLDataChildren_links std bd bu cs, Node.nodes,
      List.flatMap_cons, classifyAll_append]
    exact classifyAll_links std bd bu _ _ _ (visitNode_links std bd bu _ data)
theorem extractHTMLDataChildren_links (std : GoStd) (bd bu : String) :
    ∀ (cs : List Node) (data : CrawlData),
      (extractHTMLDataChildren std bd bu cs data).links =
        (classifyAll std bd bu ((Node.nodesOfList cs).flatMap Node.hrefs) data).links
  | [], data => by
    simp [extractHTMLDataChildren, Node.nodesOfList, classifyAll]
  | c :: cs, data => by
    rw [extractHTMLDataChildren, extractHTMLDataChildren_links std bd bu cs, Node.nodesOfList,
      List.flatMap_append, classifyAll_append]
    exact classifyAll_links std bd bu _ _ _ (extractHTMLData_links std bd bu c data)
end

/-- C16. From empty link lists, the internal and external links that
`extractHTMLData` leaves are those that result from `categorizeLink` applied,
from empty lists, to the non-empty `href` values of the `a` elements in
document order (depth-first pre-order), one after the other: an anchor without
`href` or with an empty one adds nothing, and a value that occurs again is
classified again. -/
theorem link_discovery_order (std : GoStd) (baseDomain baseURL : String) (n : Node)
    (data : CrawlData) (hint : data.InternalLinks = []) (hext : data.ExternalLinks = []) :
    (extractHTMLData std baseDomain baseURL n data).InternalLinks =
      (classifyAll std baseDomain baseURL (anchorHrefs n) emptyCrawlData).InternalLinks ∧
    (extractHTMLData std baseDomain baseURL n data).ExternalLinks =
      (classifyAll std baseDomain baseURL (anchorHrefs n) emptyCrawlData).ExternalLinks := by
  have h := extractHTMLData_links std baseDomain baseURL n data
  have h2 := classifyAll_links std baseDomain baseURL (anchorHrefs n) data emptyCrawlData
    (by simp [CrawlData.links, hint, hext, emptyCrawlData])
  have h3 := h.trans h2
  simp only [CrawlData.links, Prod.mk.injEq] at h3
  exact h3

/-- C16 at a page with a relative link, an external link, an anchor without
`href`, an anchor with an empty `href`, the relative link once more, and a
link to the host of the page. -/
theorem link_discovery_order_witness :
    anchorHrefs linksDoc =
      ["/about", "https://other.com/x", "/about", "https://example.com/home"] ∧
    (extractHTMLData goStd "example.com" "https://example.com" linksDoc
        emptyCrawlData).InternalLinks =
      ["https://example.com/about", "https://example.com/about", "https://example.com/home"] ∧
    (extractHTMLData goStd "example.com" "https://example.com" linksDoc
        emptyCrawlData).ExternalLinks = ["https://other.com/x"] := by
  have h := link_discovery_order goStd "example.com" "https://example.com" linksDoc
    emptyCrawlData rfl rfl
  refine ⟨by decide, ?_, ?_⟩
  · rw [h.1]; decide
  · rw [h.2]; decide

end WebCrawler
